import Mathlib

/-!
Shallow embedding of the ESPurna relay module (`code/espurna/relay.ino`).

Modelling conventions:
* `unsigned long` (32-bit on ESP8266) is `Nat` with arithmetic taken `% 2^32`
  wherever the C code can overflow; `unsigned char` / `byte` likewise `% 2^8`.
* `millis()` is an explicit parameter `t`; it is treated as constant for the
  duration of one entry-point invocation.
* The `Ticker` objects (`pulseTicker`, `_relaySaveTicker`) are modelled by an
  identity (`tickerId`, standing for the object's address) plus an OS-level
  list `armed` of identities of currently armed one-shot timers.  `detach`
  removes an identity, `once_ms` re-arms it (remove then append).  Copying a
  `relay_t` copies the `Ticker` member into a distinct object at a fresh
  address, so a detach through the copy does not touch the timer armed through
  the original (value semantics of the inline ETSTimer).
* Hardware pin writes, serial frames, MQTT/WS/broker notifications and debug
  messages are external I/O with no effect on module state and are omitted;
  the only state effect of `_relayProviderStatus` is `current_status := status`.
* EEPROM slot `EEPROM_RELAY_STATUS` is the `eeprom` field of the state.
* Out-of-bounds `std::vector::operator[]` access is undefined behaviour in
  C++; functions that perform an unchecked indexed access are modelled as
  `Option`-valued, returning `none` exactly on such an access.
-/

namespace Espurna

/-- Modulus of `unsigned long` (32-bit). -/
def U32 : Nat := 2 ^ 32

/-- Modulus of `unsigned char` / `byte`. -/
def U8 : Nat := 2 ^ 8

/-- C unsigned 32-bit subtraction `a - b` (operands already reduced or not). -/
def sub32 (a b : Nat) : Nat := (a + (U32 - b % U32)) % U32

/-! Constants from the ESPurna headers (`types.h` / `general.h`), which are not
part of the provided source file; values are the upstream definitions. -/

def RELAY_TYPE_NORMAL : Nat := 0
def RELAY_TYPE_INVERSE : Nat := 1
def RELAY_TYPE_LATCHED : Nat := 2
def RELAY_TYPE_LATCHED_INVERSE : Nat := 3

def RELAY_PULSE_NONE : Nat := 0
def RELAY_PULSE_OFF : Nat := 1
def RELAY_PULSE_ON : Nat := 2

def RELAY_SYNC_ANY : Nat := 0
def RELAY_SYNC_NONE_OR_ANY : Nat := 1
def RELAY_SYNC_ONE : Nat := 2
def RELAY_SYNC_SAME : Nat := 3

def RELAY_BOOT_OFF : Nat := 0
def RELAY_BOOT_ON : Nat := 1
def RELAY_BOOT_SAME : Nat := 2
def RELAY_BOOT_TOGGLE : Nat := 3

def GPIO_NONE : Nat := 153

def MAX_COMPONENTS : Nat := 10

/-- `relay_t`: one record per relay (configuration, live status, pulse timer).
`tickerId` is the identity (address) of the record's owned `pulseTicker`. -/
structure RelayT where
  pin : Nat
  type : Nat
  reset_pin : Nat
  delay_on : Nat
  delay_off : Nat
  pulse : Nat
  pulse_ms : Nat
  current_status : Bool
  target_status : Bool
  fw_start : Nat
  fw_count : Nat
  change_time : Nat
  report : Bool
  group_report : Bool
  tickerId : Nat
deriving Repr, DecidableEq

/-- A value-initialised `relay_t` (all fields zero / false). -/
def defaultRelay : RelayT :=
  { pin := 0, type := 0, reset_pin := 0, delay_on := 0, delay_off := 0
    pulse := 0, pulse_ms := 0, current_status := false, target_status := false
    fw_start := 0, fw_count := 0, change_time := 0
    report := false, group_report := false, tickerId := 0 }

/-- Module state: the `_relays` vector, the `_relayRecursive` flag, the set of
armed pulse-ticker identities, the `_relaySaveTicker` flag, the persisted
EEPROM byte, and a fresh-address counter for newly created `Ticker` objects. -/
structure RelayState where
  relays : List RelayT
  relayRecursive : Bool
  armed : List Nat
  saveArmed : Bool
  eeprom : Nat
  nextAddr : Nat
deriving Repr, DecidableEq

/-- Read `_relays[id]` (callers in the model only use valid indices unless
explicitly modelling an unchecked access). -/
def getRelay (st : RelayState) (id : Nat) : RelayT :=
  st.relays.getD id defaultRelay

/-- Write `_relays[id]`. -/
def setRelay (st : RelayState) (id : Nat) (r : RelayT) : RelayState :=
  { st with relays := st.relays.set id r }

/-- `Ticker::detach` of the ticker with identity `tid`. -/
def tickerDetach (armed : List Nat) (tid : Nat) : List Nat :=
  armed.filter (fun x => x ≠ tid)

/-- `Ticker::once_ms` of the ticker with identity `tid` (re-arming an armed
ticker first disarms it). -/
def tickerArm (armed : List Nat) (tid : Nat) : List Nat :=
  tickerDetach armed tid ++ [tid]

/-- Settings store and compile-time configuration seen by the module.
`floodWindow` is `RELAY_FLOOD_WINDOW` (seconds), `floodChanges` is
`RELAY_FLOOD_CHANGES`; `rlyPulse`/`rlyTimeMs`/`rlyBoot`/`rlyDelayOn`/… are the
values returned by `getSetting` (with their defaults already applied);
`rlyTimeMs i` stands for `1000 * getSetting("rlyTime", i, …).toFloat()`. -/
structure Env where
  floodWindow : Nat
  floodChanges : Nat
  rlySync : Nat
  rlyPulse : Nat → Nat
  rlyTimeMs : Nat → Nat
  rlyBoot : Nat → Nat
  rlyDummy : Nat
  rlyDelayOn : Nat → Nat
  rlyDelayOff : Nat → Nat
  rlyGPIO : Nat → Nat
  rlyType : Nat → Nat
  rlyResetGPIO : Nat → Nat
  rlyPulseSetting : Nat → Nat
  rlyTimeMsSetting : Nat → Nat

/-- `relayStatus(id)` (getter): out-of-range returns `false`, otherwise the
stored `current_status`. -/
def relayStatusGet (st : RelayState) (id : Nat) : Bool :=
  if id < st.relays.length then (getRelay st id).current_status else false

/-- `_relayProviderStatus(id, status)`: checks the id, stores the new current
status.  The provider-specific hardware output is external I/O. -/
def relayProviderStatus (st : RelayState) (id : Nat) (status : Bool) : RelayState :=
  if id < st.relays.length then
    setRelay st id { getRelay st id with current_status := status }
  else st

/-- Body of `relayPulse(id)` for a valid index: detach the pulse ticker, then
return early when `pulse == RELAY_PULSE_NONE` or `pulse_ms == 0`; otherwise
compare the pulse-trigger level with the current status and, when they differ,
arm the one-shot ticker (`once_ms(ms, relayToggle, id)`) and reload the pulse
settings. -/
def relayPulseCore (env : Env) (st : RelayState) (id : Nat) : RelayState :=
  let r := getRelay st id
  let st1 : RelayState := { st with armed := tickerDetach st.armed r.tickerId }
  if r.pulse = RELAY_PULSE_NONE then st1
  else if r.pulse_ms = 0 then st1
  else
    let status := relayStatusGet st1 id
    let pulseStatus : Bool := r.pulse = RELAY_PULSE_ON
    if pulseStatus ≠ status then
      let st2 : RelayState := { st1 with armed := tickerArm st1.armed r.tickerId }
      setRelay st2 id { r with pulse := env.rlyPulse id, pulse_ms := env.rlyTimeMs id }
    else st1

/-- `relayPulse(id)`: the C code performs `_relays[id].pulseTicker.detach()`
without any index check, so an out-of-range id is an unchecked vector access
(undefined behaviour), modelled as `none`. -/
def relayPulse (env : Env) (st : RelayState) (id : Nat) : Option RelayState :=
  if id < st.relays.length then some (relayPulseCore env st id) else none

/-- The record written by the scheduling branch of the setter: flood-window
bookkeeping, the new `change_time`, the new target and the report flags
(`current_status != status` case of `relayStatus`). -/
def floodUpdate (env : Env) (t : Nat) (r : RelayT) (status report group_report : Bool) :
    RelayT :=
  let fw_end := (r.fw_start + 1000 * env.floodWindow) % U32
  let delay := if status then r.delay_on else r.delay_off
  let fwc := (r.fw_count + 1) % U8
  let ct := (t + delay) % U32
  let r1 :=
    if t < r.fw_start ∨ fw_end ≤ t then
      { r with fw_count := 1, fw_start := t, change_time := ct }
    else if env.floodChanges ≤ fwc then
      if t < sub32 fw_end delay then
        { r with fw_count := fwc, change_time := fw_end }
      else
        { r with fw_count := fwc, change_time := ct }
    else
      { r with fw_count := fwc, change_time := ct }
  { r1 with
    target_status := status
    report := if report then true else r1.report
    group_report := if group_report then true else r1.group_report }

mutual

/-- `relayStatus(id, status, report, group_report)` (setter).  The first
argument is recursion fuel for the mutual recursion with `relaySync`; the
guard `_relayRecursive` bounds the real recursion depth at two, so any fuel
`≥ 2` computes the function (the module uses `relayFuel = 4`). -/
def relayStatusSet : Nat → Env → Nat → RelayState → Nat → Bool → Bool → Bool →
    RelayState × Bool
  | 0, _, _, st, _, _, _, _ => (st, false)
  | fuel + 1, env, t, st, id, status, report, group_report =>
    if id < st.relays.length then
      let r := getRelay st id
      if r.current_status = status then
        -- cancel a pending scheduled change, if any
        let st1 :=
          if r.target_status ≠ status then
            setRelay st id
              { r with target_status := status, report := false, group_report := false }
          else st
        (relayPulseCore env st1 id, r.target_status ≠ status)
      else
        let st1 := setRelay st id (floodUpdate env t r status report group_report)
        (relaySyncF fuel env t st1 id, true)
    else (st, false)

/-- `relaySync(id)`: early return when fewer than two relays or when already
inside a synchronisation pass (`_relayRecursive`); otherwise set the flag,
propagate per the configured policy through the ordinary setter, and clear the
flag. -/
def relaySyncF : Nat → Env → Nat → RelayState → Nat → RelayState
  | 0, _, _, st, _ => st
  | fuel + 1, env, t, st, id =>
    if st.relays.length < 2 then st
    else if st.relayRecursive then st
    else
      let st0 : RelayState := { st with relayRecursive := true }
      let status := (getRelay st0 id).target_status
      let st1 :=
        if env.rlySync = RELAY_SYNC_SAME then
          (List.range st0.relays.length).foldl
            (fun s i =>
              if i ≠ id then (relayStatusSet fuel env t s i status true true).1 else s)
            st0
        else if status then
          if env.rlySync ≠ RELAY_SYNC_ANY then
            (List.range st0.relays.length).foldl
              (fun s i =>
                if i ≠ id then (relayStatusSet fuel env t s i false true true).1 else s)
              st0
          else st0
        else
          if env.rlySync = RELAY_SYNC_ONE then
            (relayStatusSet fuel env t st0 ((id + 1) % st0.relays.length) true true true).1
          else st0
      { st1 with relayRecursive := false }

end

/-- Fuel used by the module's entry points; any value `≥ 2` gives the same
result because `_relayRecursive` cuts the recursion at depth two. -/
def relayFuel : Nat := 4

/-- `relayStatus(id, status)` = `relayStatus(id, status, true, true)`. -/
def relayStatus2 (env : Env) (t : Nat) (st : RelayState) (id : Nat) (status : Bool) :
    RelayState × Bool :=
  relayStatusSet relayFuel env t st id status true true

/-- `relayToggle(id, report, group_report)`. -/
def relayToggle3 (env : Env) (t : Nat) (st : RelayState) (id : Nat)
    (report group_report : Bool) : RelayState :=
  if id < st.relays.length then
    (relayStatusSet relayFuel env t st id (!(relayStatusGet st id)) report group_report).1
  else st

/-- `relayToggle(id)` = `relayToggle(id, true, true)`. -/
def relayToggle1 (env : Env) (t : Nat) (st : RelayState) (id : Nat) : RelayState :=
  relayToggle3 env t st id true true

/-- `relayCount()`. -/
def relayCount (st : RelayState) : Nat := st.relays.length

/-- The mask accumulated by `relaySave`: `unsigned char bit = 1, mask = 0`,
and per relay `if (relayStatus(i)) mask += bit; bit += bit;` — both in 8-bit
arithmetic. -/
def relaySaveMask (st : RelayState) : Nat :=
  ((List.range st.relays.length).foldl
    (fun (p : Nat × Nat) i =>
      (if relayStatusGet st i then (p.1 + p.2) % U8 else p.1, (p.2 + p.2) % U8))
    (0, 1)).1

/-- `relaySave()`: write the accumulated mask to the EEPROM slot. -/
def relaySave (st : RelayState) : RelayState :=
  { st with eeprom := relaySaveMask st }

/-- One iteration of the `_relayProcess(mode)` loop body for relay `id`:
skip when settled, when the target is not the requested mode, or when the
change time has not arrived; otherwise apply the provider action and — when
not inside a synchronisation pass — refresh the pulse timer and arm the
debounced save; finally clear the report flags.  The second component is the
trace of applied transitions `(id, target)`. -/
def relayProcessStep (env : Env) (t : Nat) (mode : Bool)
    (acc : RelayState × List (Nat × Bool)) (id : Nat) :
    RelayState × List (Nat × Bool) :=
  let st := acc.1
  let r := getRelay st id
  if r.target_status = r.current_status then acc
  else if r.target_status ≠ mode then acc
  else if t < r.change_time then acc
  else
    let st1 := relayProviderStatus st id r.target_status
    let st2 :=
      if !st1.relayRecursive then
        { relayPulseCore env st1 id with saveArmed := true }
      else st1
    let st3 := setRelay st2 id
      { getRelay st2 id with report := false, group_report := false }
    (st3, acc.2 ++ [(id, r.target_status)])

/-- `_relayProcess(mode)`: walk the relay vector in index order, applying the
relays that have to change to the requested mode. -/
def relayProcess (env : Env) (t : Nat) (mode : Bool) (st : RelayState) :
    RelayState × List (Nat × Bool) :=
  (List.range st.relays.length).foldl (relayProcessStep env t mode) (st, [])

/-- `_relayLoop()`: one scheduler tick — the OFF pass, then the ON pass. -/
def relayLoop (env : Env) (t : Nat) (st : RelayState) :
    RelayState × List (Nat × Bool) :=
  let p1 := relayProcess env t false st
  let p2 := relayProcess env t true p1.1
  (p2.1, p1.2 ++ p2.2)

/-- Loop body of `_relayBoot` for relay `i`: apply the boot policy to obtain
`status`, seed `current_status = !status`, `target_status = status`,
`change_time = millis()`, and double the 8-bit `bit`.  The accumulator is
`(state, bit, mask, trigger_save)`. -/
def relayBootStep (env : Env) (t : Nat) (acc : RelayState × Nat × Nat × Bool)
    (i : Nat) : RelayState × Nat × Nat × Bool :=
  let s := acc.1
  let bit := acc.2.1
  let mask := acc.2.2.1
  let trig := acc.2.2.2
  let boot_mode := env.rlyBoot i
  let step : Bool × Nat × Bool :=
    if boot_mode = RELAY_BOOT_SAME then (mask &&& bit = bit, mask, trig)
    else if boot_mode = RELAY_BOOT_TOGGLE then
      (!(decide (mask &&& bit = bit)), mask ^^^ bit, true)
    else if boot_mode = RELAY_BOOT_ON then (true, mask, trig)
    else (false, mask, trig)
  let r := getRelay s i
  (setRelay s i
    { r with current_status := !step.1, target_status := step.1, change_time := t },
   (bit + bit) % U8, step.2.1, step.2.2)

/-- `_relayBoot()`: set the reentrancy flag, read the persisted mask byte,
walk the relays applying each one's boot policy (`bit` is an `unsigned char`,
so `bit <<= 1` wraps to zero from relay 8 on), seed `current_status` with the
negation of the target, stamp `change_time` with the boot time, and re-save
the mask when any relay used the `Toggle` policy.  The `RELAY_PROVIDER_STM`
boot stagger is compiled out in the default configuration. -/
def relayBoot (env : Env) (t : Nat) (st : RelayState) : RelayState :=
  let st0 : RelayState := { st with relayRecursive := true }
  let mask0 := st.eeprom % U8
  let res :=
    (List.range st0.relays.length).foldl (relayBootStep env t) (st0, 1, mask0, false)
  let st1 := res.1
  let st2 := if res.2.2.2 then { st1 with eeprom := res.2.2.1 } else st1
  { st2 with relayRecursive := false }

/-- `_relayClear()`: for each record the C code makes a by-value copy
(`relay_t element = _relays[i];`) and detaches the copy's `pulseTicker` — a
distinct `Ticker` object at a fresh address (`nextAddr + i`), not the ticker
owned by `_relays[i]` — then clears the vector. -/
def relayClear (st : RelayState) : RelayState :=
  let n := st.relays.length
  let armed1 :=
    (List.range n).foldl (fun a i => tickerDetach a (st.nextAddr + i)) st.armed
  { st with relays := [], armed := armed1, nextAddr := st.nextAddr + n }

/-- The record pushed for a dummy relay:
`(relay_t) {0, RELAY_TYPE_NORMAL, 0, delay_on, delay_off}` with the remaining
members value-initialised and a freshly constructed `Ticker`. -/
def dummyRecord (env : Env) (index addr : Nat) : RelayT :=
  { defaultRelay with
    pin := 0
    type := RELAY_TYPE_NORMAL
    reset_pin := 0
    delay_on := env.rlyDelayOn index
    delay_off := env.rlyDelayOff index
    tickerId := addr }

/-- The record pushed for a GPIO relay:
`(relay_t) { pin, type, reset, delay_on, delay_off, pulse, pulse_ms }`. -/
def gpioRecord (env : Env) (index addr : Nat) : RelayT :=
  { defaultRelay with
    pin := env.rlyGPIO index
    type := env.rlyType index
    reset_pin := env.rlyResetGPIO index
    delay_on := env.rlyDelayOn index
    delay_off := env.rlyDelayOff index
    pulse := env.rlyPulseSetting index
    pulse_ms := env.rlyTimeMsSetting index
    tickerId := addr }

/-- The GPIO scan loop of `_relayConfigure`: `while (index < MAX_COMPONENTS)`,
stopping at the first index whose configured pin is `GPIO_NONE`.  Pin-mode
and initial-level writes are hardware I/O. -/
def configureScan (env : Env) (remaining index : Nat) (st : RelayState) : RelayState :=
  match remaining with
  | 0 => st
  | rem + 1 =>
    if env.rlyGPIO index = GPIO_NONE then st
    else
      configureScan env rem (index + 1)
        { st with
          relays := st.relays ++ [gpioRecord env index st.nextAddr]
          nextAddr := st.nextAddr + 1 }

/-- `_relayConfigure()`: clear the store, then rebuild it either as `rlyDummy`
virtual relays or by scanning the per-index GPIO configuration. -/
def relayConfigure (env : Env) (st : RelayState) : RelayState :=
  let st1 := relayClear st
  if 0 < env.rlyDummy then
    (List.range env.rlyDummy).foldl
      (fun s index =>
        { s with
          relays := s.relays ++ [dummyRecord env index s.nextAddr]
          nextAddr := s.nextAddr + 1 })
      st1
  else
    configureScan env MAX_COMPONENTS 0 st1

/-- C `tolower` restricted to the ASCII letters that the payload matching
needs. -/
def cToLower (c : Char) : Char :=
  if 'A' ≤ c ∧ c ≤ 'Z' then Char.ofNat (c.toNat + 32) else c

/-- Lower-case the first `k` characters of a string, leaving the rest. -/
def lowerFirst (k : Nat) (s : List Char) : List Char :=
  match k, s with
  | 0, s => s
  | _ + 1, [] => []
  | k + 1, c :: cs => cToLower c :: lowerFirst k cs

/-- Modelled from the spec: the `ltrim` string utility (defined in the
repository's `utils.ino`, which is not part of the provided source) strips
leading spaces before the payload words are matched. -/
def ltrim (s : List Char) : List Char :=
  match s with
  | c :: cs => if c = ' ' then ltrim cs else c :: cs
  | [] => []

/-- `relayParsePayload(payload)`.  A C string is modelled as the list of its
characters before the NUL terminator; `payload[0]` of an empty string reads
the terminator, which is no digit.  `strlen`/6-bounded lower-casing and
`strcmp` against the four keywords follow the source. -/
def relayParsePayload (payload : List Char) : Nat :=
  let c0 := payload.headD (Char.ofNat 0)
  if c0 = '0' then 0
  else if c0 = '1' then 1
  else if c0 = '2' then 2
  else
    let p := ltrim payload
    let l := min p.length 6
    let q := lowerFirst l p
    if q = ['o', 'f', 'f'] then 0
    else if q = ['o', 'n'] then 1
    else if q = ['t', 'o', 'g', 'g', 'l', 'e'] then 2
    else if q = ['q', 'u', 'e', 'r', 'y'] then 3
    else 255

/-- The keyword matching described by the specification: the (trimmed,
lower-cased) payload is compared against `off`, `on`, `toggle`, `query`,
yielding `0`, `1`, `2`, `3`, and `0xFF` for everything else.  Stated
separately so the parser can be proved to refine it. -/
def wordMatch (q : List Char) : Nat :=
  if q = ['o', 'f', 'f'] then 0
  else if q = ['o', 'n'] then 1
  else if q = ['t', 'o', 'g', 'g', 'l', 'e'] then 2
  else if q = ['q', 'u', 'e', 'r', 'y'] then 3
  else 255

/-! ### Concrete instances used by the claim witnesses and counterexamples -/

/-- A configuration with the default flood constants
(`RELAY_FLOOD_WINDOW = 3`, `RELAY_FLOOD_CHANGES = 5`), the `AllSame` sync
policy and trivial per-relay settings. -/
def cEnv : Env :=
  { floodWindow := 3
    floodChanges := 5
    rlySync := RELAY_SYNC_SAME
    rlyPulse := fun _ => 0
    rlyTimeMs := fun _ => 0
    rlyBoot := fun _ => RELAY_BOOT_SAME
    rlyDummy := 0
    rlyDelayOn := fun _ => 0
    rlyDelayOff := fun _ => 0
    rlyGPIO := fun _ => GPIO_NONE
    rlyType := fun _ => 0
    rlyResetGPIO := fun _ => GPIO_NONE
    rlyPulseSetting := fun _ => 0
    rlyTimeMsSetting := fun _ => 0 }

/-- A single relay, all defaults, with its flood window freshly opened by a
first request at time 0 (`fw_start = 0`, `fw_count = 1`). -/
def cStFlood : RelayState :=
  { relays := [{ defaultRelay with fw_count := 1 }]
    relayRecursive := false
    armed := []
    saveArmed := false
    eeprom := 0
    nextAddr := 10 }

/-- Two relays: relay 0 settled ON, relay 1 settled OFF. -/
def cStTwo : RelayState :=
  { relays := [{ defaultRelay with current_status := true, target_status := true },
               defaultRelay]
    relayRecursive := false
    armed := []
    saveArmed := false
    eeprom := 0
    nextAddr := 10 }

/-- Three relays, all settled OFF except relay 2 which is settled ON. -/
def cStThree : RelayState :=
  { relays := [defaultRelay, defaultRelay,
               { defaultRelay with current_status := true, target_status := true }]
    relayRecursive := false
    armed := []
    saveArmed := false
    eeprom := 0
    nextAddr := 10 }

/-- One relay with a pending scheduled change: `current = false`,
`target = true`. -/
def cStPending : RelayState :=
  { relays := [{ defaultRelay with target_status := true }]
    relayRecursive := false
    armed := []
    saveArmed := false
    eeprom := 0
    nextAddr := 10 }

/-- One relay whose pulse mode is `RELAY_PULSE_NONE` but whose pulse ticker
(identity 5) is currently armed. -/
def cStArmed : RelayState :=
  { relays := [{ defaultRelay with tickerId := 5 }]
    relayRecursive := false
    armed := [5]
    saveArmed := false
    eeprom := 0
    nextAddr := 10 }

/-- One relay owning the armed pulse ticker with identity 0
(`nextAddr = 1`: identity 0 is the only `Ticker` object in existence). -/
def cStTicker : RelayState :=
  { relays := [{ defaultRelay with tickerId := 0 }]
    relayRecursive := false
    armed := [0]
    saveArmed := false
    eeprom := 0
    nextAddr := 1 }

/-- Four default relays with persisted mask byte 255. -/
def cStFour : RelayState :=
  { relays := [defaultRelay, defaultRelay, defaultRelay, defaultRelay]
    relayRecursive := false
    armed := []
    saveArmed := false
    eeprom := 255
    nextAddr := 10 }

/-- Two default relays with persisted mask byte 2. -/
def cStMask2 : RelayState :=
  { relays := [defaultRelay, defaultRelay]
    relayRecursive := false
    armed := []
    saveArmed := false
    eeprom := 2
    nextAddr := 10 }

/-- Nine default relays (one more than the persisted mask has bits). -/
def cStNine : RelayState :=
  { relays := List.replicate 9 defaultRelay
    relayRecursive := false
    armed := []
    saveArmed := false
    eeprom := 0
    nextAddr := 10 }

/-- Three relays for the scheduler-ordering scenario: relay 0 due to turn ON,
relay 1 due to turn OFF, relay 2 pending OFF but not yet due at time 50. -/
def cStSched : RelayState :=
  { relays := [{ defaultRelay with target_status := true, change_time := 10 },
               { defaultRelay with current_status := true, change_time := 5 },
               { defaultRelay with current_status := true, change_time := 100 }]
    relayRecursive := false
    armed := []
    saveArmed := false
    eeprom := 0
    nextAddr := 10 }

/-! ### Basic list and fold lemmas -/

theorem getD_set_self {α : Type _} (l : List α) (i : Nat) (r d : α)
    (h : i < l.length) : (l.set i r).getD i d = r := by
  induction l generalizing i with
  | nil => simp at h
  | cons a as ih =>
    cases i with
    | zero => rfl
    | succ j =>
      simp only [List.set_cons_succ, List.getD_cons_succ]
      exact ih j (by simpa using h)

theorem getD_set_ne {α : Type _} (l : List α) (i j : Nat) (r d : α)
    (h : i ≠ j) : (l.set i r).getD j d = l.getD j d := by
  induction l generalizing i j with
  | nil => simp
  | cons a as ih =>
    cases i with
    | zero =>
      cases j with
      | zero => exact absurd rfl h
      | succ j' => rfl
    | succ i' =>
      cases j with
      | zero => rfl
      | succ j' =>
        simp only [List.set_cons_succ, List.getD_cons_succ]
        exact ih i' j' (by omega)

/-- Invariant principle for a left fold over `List.range n`. -/
theorem range_fold_invariant {α : Type _} (f : α → Nat → α) (P : Nat → α → Prop)
    (n : Nat) (a : α) (h0 : P 0 a)
    (hstep : ∀ k x, k < n → P k x → P (k + 1) (f x k)) :
    P n ((List.range n).foldl f a) := by
  induction n with
  | zero => simpa using h0
  | succ m ih =>
    rw [List.range_succ, List.foldl_append]
    exact hstep m _ (Nat.lt_succ_self m)
      (ih (fun k x hk => hstep k x (Nat.lt_succ_of_lt hk)))

/-! ### Frame lemmas for the elementary state operations -/

theorem length_setRelay (st : RelayState) (id : Nat) (r : RelayT) :
    (setRelay st id r).relays.length = st.relays.length := by
  simp [setRelay]

theorem getRelay_setRelay_self (st : RelayState) (id : Nat) (r : RelayT)
    (h : id < st.relays.length) : getRelay (setRelay st id r) id = r := by
  show (st.relays.set id r).getD id defaultRelay = r
  exact getD_set_self _ _ _ _ h

theorem getRelay_setRelay_ne (st : RelayState) (id j : Nat) (r : RelayT)
    (h : id ≠ j) : getRelay (setRelay st id r) j = getRelay st j := by
  show (st.relays.set id r).getD j defaultRelay = st.relays.getD j defaultRelay
  exact getD_set_ne _ _ _ _ _ h

theorem relayProviderStatus_length (st : RelayState) (id : Nat) (b : Bool) :
    (relayProviderStatus st id b).relays.length = st.relays.length := by
  unfold relayProviderStatus
  split
  · exact length_setRelay _ _ _
  · rfl

theorem relayProviderStatus_recursive (st : RelayState) (id : Nat) (b : Bool) :
    (relayProviderStatus st id b).relayRecursive = st.relayRecursive := by
  unfold relayProviderStatus
  split <;> rfl

theorem getRelay_relayProviderStatus_ne (st : RelayState) (id j : Nat) (b : Bool)
    (h : id ≠ j) : getRelay (relayProviderStatus st id b) j = getRelay st j := by
  unfold relayProviderStatus
  split
  · exact getRelay_setRelay_ne _ _ _ _ h
  · rfl

theorem relayPulseCore_length (env : Env) (st : RelayState) (id : Nat) :
    (relayPulseCore env st id).relays.length = st.relays.length := by
  unfold relayPulseCore
  dsimp only
  split
  · rfl
  split
  · rfl
  split
  · exact length_setRelay _ _ _
  · rfl

theorem relayPulseCore_recursive (env : Env) (st : RelayState) (id : Nat) :
    (relayPulseCore env st id).relayRecursive = st.relayRecursive := by
  unfold relayPulseCore
  dsimp only
  split
  · rfl
  split
  · rfl
  split
  · rfl
  · rfl

theorem relayPulseCore_eeprom (env : Env) (st : RelayState) (id : Nat) :
    (relayPulseCore env st id).eeprom = st.eeprom := by
  unfold relayPulseCore
  dsimp only
  split
  · rfl
  split
  · rfl
  split
  · rfl
  · rfl

theorem getRelay_relayPulseCore_ne (env : Env) (st : RelayState) (id j : Nat)
    (h : j ≠ id) : getRelay (relayPulseCore env st id) j = getRelay st j := by
  unfold relayPulseCore
  dsimp only
  split
  · rfl
  split
  · rfl
  split
  · exact getRelay_setRelay_ne _ _ _ _ (fun e => h e.symm)
  · rfl

/-- `relayPulse` changes at most the `pulse` and `pulse_ms` fields of its own
record. -/
theorem getRelay_relayPulseCore_self (env : Env) (st : RelayState) (id : Nat)
    (h : id < st.relays.length) :
    ∃ pu pm, getRelay (relayPulseCore env st id) id =
      { getRelay st id with pulse := pu, pulse_ms := pm } := by
  unfold relayPulseCore
  dsimp only
  split
  · exact ⟨(getRelay st id).pulse, (getRelay st id).pulse_ms, rfl⟩
  split
  · exact ⟨(getRelay st id).pulse, (getRelay st id).pulse_ms, rfl⟩
  split
  · refine ⟨env.rlyPulse id, env.rlyTimeMs id, ?_⟩
    exact getRelay_setRelay_self _ _ _ h
  · exact ⟨(getRelay st id).pulse, (getRelay st id).pulse_ms, rfl⟩

/-! ### Lemmas about the setter / synchroniser recursion -/

/-- A `relaySync` entered while `_relayRecursive` is set returns immediately,
modifying nothing. -/
theorem relaySyncF_of_recursive (f : Nat) (env : Env) (t : Nat) (st : RelayState)
    (id : Nat) (h : st.relayRecursive = true) : relaySyncF f env t st id = st := by
  cases f with
  | zero => rfl
  | succ f => simp [relaySyncF, h]

/-- `relaySync` restores the reentrancy flag to its entry value on every exit
path. -/
theorem relaySyncF_recursive (f : Nat) (env : Env) (t : Nat) (st : RelayState)
    (id : Nat) : (relaySyncF f env t st id).relayRecursive = st.relayRecursive := by
  cases f with
  | zero => rfl
  | succ f =>
    unfold relaySyncF
    dsimp only
    split
    · rfl
    split
    · rfl
    · rename_i h2
      simp only [Bool.not_eq_true] at h2
      simp [h2]

/-- A setter call made while `_relayRecursive` is set: the flag stays set, the
vector length is unchanged, and every record other than `id` is untouched. -/
theorem relayStatusSet_of_recursive (f : Nat) (env : Env) (t : Nat) (st : RelayState)
    (id : Nat) (s rep grp : Bool) (h : st.relayRecursive = true) :
    (relayStatusSet f env t st id s rep grp).1.relayRecursive = true ∧
    (relayStatusSet f env t st id s rep grp).1.relays.length = st.relays.length ∧
    ∀ j, j ≠ id → getRelay (relayStatusSet f env t st id s rep grp).1 j = getRelay st j := by
  cases f with
  | zero => exact ⟨h, rfl, fun _ _ => rfl⟩
  | succ f =>
    unfold relayStatusSet
    dsimp only
    split
    case isFalse => exact ⟨h, rfl, fun _ _ => rfl⟩
    case isTrue hid =>
      split
      case isTrue hcur =>
        split
        case isTrue hne =>
          refine ⟨?_, ?_, ?_⟩
          · rw [relayPulseCore_recursive]; exact h
          · rw [relayPulseCore_length, length_setRelay]
          · intro j hj
            rw [getRelay_relayPulseCore_ne _ _ _ _ hj,
              getRelay_setRelay_ne _ _ _ _ (fun e => hj e.symm)]
        case isFalse hne =>
          refine ⟨?_, ?_, ?_⟩
          · rw [relayPulseCore_recursive]; exact h
          · rw [relayPulseCore_length]
          · intro j hj
            exact getRelay_relayPulseCore_ne _ _ _ _ hj
      case isFalse hcur =>
        rw [relaySyncF_of_recursive _ _ _ _ _ (by simpa [setRelay] using h)]
        refine ⟨by simpa [setRelay] using h, by simp [length_setRelay], ?_⟩
        intro j hj
        exact getRelay_setRelay_ne _ _ _ _ (fun e => hj e.symm)

/-- `relayPulse` leaves its relay's `target_status` unchanged. -/
theorem relayPulseCore_target (env : Env) (st : RelayState) (id : Nat)
    (h : id < st.relays.length) :
    (getRelay (relayPulseCore env st id) id).target_status =
      (getRelay st id).target_status := by
  obtain ⟨pu, pm, hpp⟩ := getRelay_relayPulseCore_self env st id h
  rw [hpp]

/-- A setter call made while `_relayRecursive` is set writes `status` as its
relay's `target_status` (the other relays stay untouched by
`relayStatusSet_of_recursive`). -/
theorem relayStatusSet_sets_target (f : Nat) (env : Env) (t : Nat) (st : RelayState)
    (id : Nat) (s rep grp : Bool) (h : st.relayRecursive = true)
    (hid : id < st.relays.length) :
    (getRelay (relayStatusSet (f + 1) env t st id s rep grp).1 id).target_status = s := by
  unfold relayStatusSet
  dsimp only
  rw [if_pos hid]
  split
  case isTrue hcur =>
    split
    case isTrue hne =>
      rw [relayPulseCore_target env _ id (by rw [length_setRelay]; exact hid)]
      rw [getRelay_setRelay_self _ _ _ hid]
    case isFalse hne =>
      rw [relayPulseCore_target env st id hid]
      simp only [ne_eq, Decidable.not_not] at hne
      exact hne
  case isFalse hcur =>
    rw [relaySyncF_of_recursive f env t
      (setRelay st id (floodUpdate env t (getRelay st id) s rep grp)) id h]
    rw [getRelay_setRelay_self _ _ _ hid]
    rfl

/-- Helper: with at least two relays, the relay picked by the `ONLY_ONE`
policy differs from the triggering one. -/
theorem succ_mod_ne (id n : Nat) (h : 2 ≤ n) : (id + 1) % n ≠ id := by
  intro e
  rcases Nat.lt_or_ge id n with hlt | hge
  · rcases Nat.lt_or_ge (id + 1) n with h1 | h1
    · rw [Nat.mod_eq_of_lt h1] at e
      omega
    · have : id + 1 = n := by omega
      rw [this, Nat.mod_self] at e
      omega
  · have : (id + 1) % n < n := Nat.mod_lt _ (by omega)
    omega

/-- `relaySync` never touches the record of the relay that triggered it, and
preserves the vector length. -/
theorem relaySyncF_preserves_own (f : Nat) (env : Env) (t : Nat) (st : RelayState)
    (id : Nat) :
    getRelay (relaySyncF f env t st id) id = getRelay st id ∧
    (relaySyncF f env t st id).relays.length = st.relays.length := by
  cases f with
  | zero => exact ⟨rfl, rfl⟩
  | succ f =>
    unfold relaySyncF
    dsimp only
    split
    · exact ⟨rfl, rfl⟩
    split
    · exact ⟨rfl, rfl⟩
    rename_i hlen hrec
    set st0 : RelayState := { st with relayRecursive := true } with hst0
    have hrec0 : st0.relayRecursive = true := rfl
    have hlen2 : 2 ≤ st.relays.length := by omega
    have key : ∀ (b : Bool)
        (x : RelayState),
        x = (List.range st0.relays.length).foldl
          (fun s i => if i ≠ id then (relayStatusSet f env t s i b true true).1 else s) st0 →
        getRelay x id = getRelay st0 id ∧ x.relays.length = st0.relays.length ∧
        x.relayRecursive = true := by
      intro b x hx
      subst hx
      exact range_fold_invariant _
        (fun _ x => getRelay x id = getRelay st0 id ∧
          x.relays.length = st0.relays.length ∧ x.relayRecursive = true)
        _ _ ⟨rfl, rfl, rfl⟩
        (fun k x _ ih => by
          split
          case isTrue hk =>
            obtain ⟨h1, h2, h3⟩ := relayStatusSet_of_recursive f env t x k b true true ih.2.2
            exact ⟨(h3 id (fun e => hk e.symm)).trans ih.1, h2.trans ih.2.1, h1⟩
          case isFalse => exact ih)
    split
    case isTrue =>
      obtain ⟨h1, h2, _⟩ := key _ _ rfl
      exact ⟨h1, h2⟩
    split
    case isTrue =>
      split
      case isTrue =>
        obtain ⟨h1, h2, _⟩ := key _ _ rfl
        exact ⟨h1, h2⟩
      case isFalse => exact ⟨rfl, rfl⟩
    case isFalse =>
      split
      case isTrue =>
        obtain ⟨_, h2, h3⟩ := relayStatusSet_of_recursive f env t st0
          ((id + 1) % st0.relays.length) true true true hrec0
        have hne : (id + 1) % st0.relays.length ≠ id := succ_mod_ne id _ hlen2
        exact ⟨h3 id (Ne.symm hne), h2⟩
      case isFalse => exact ⟨rfl, rfl⟩

/-- Characterisation of a setter call on a valid index requesting a status
different from the current one: the `changed` result is `true`, the relay's
record becomes `floodUpdate …`, and the vector length and the reentrancy flag
are restored. -/
theorem relayStatusSet_flood (f : Nat) (env : Env) (t : Nat) (st : RelayState)
    (id : Nat) (s rep grp : Bool) (hid : id < st.relays.length)
    (hcur : ¬ (getRelay st id).current_status = s) :
    (relayStatusSet (f + 1) env t st id s rep grp).1.relays.length = st.relays.length ∧
    (relayStatusSet (f + 1) env t st id s rep grp).1.relayRecursive = st.relayRecursive ∧
    (relayStatusSet (f + 1) env t st id s rep grp).2 = true ∧
    getRelay (relayStatusSet (f + 1) env t st id s rep grp).1 id =
      floodUpdate env t (getRelay st id) s rep grp := by
  unfold relayStatusSet
  dsimp only
  rw [if_pos hid, if_neg hcur]
  refine ⟨?_, ?_, rfl, ?_⟩
  · rw [(relaySyncF_preserves_own f env t _ id).2, length_setRelay]
  · rw [relaySyncF_recursive]
    rfl
  · rw [(relaySyncF_preserves_own f env t _ id).1, getRelay_setRelay_self _ _ _ hid]

/-- Characterisation of a setter call on a valid index requesting the relay's
current status: the call reduces to the cancellation write (when a change was
pending) followed by the pulse refresh, and `changed` reports whether a
pending change existed. -/
theorem relayStatusSet_idem_eq (f : Nat) (env : Env) (t : Nat) (st : RelayState)
    (id : Nat) (s rep grp : Bool) (hid : id < st.relays.length)
    (hcur : (getRelay st id).current_status = s) :
    relayStatusSet (f + 1) env t st id s rep grp =
      (relayPulseCore env
        (if (getRelay st id).target_status ≠ s then
          setRelay st id
            { getRelay st id with target_status := s, report := false, group_report := false }
        else st) id,
       decide ((getRelay st id).target_status ≠ s)) := by
  unfold relayStatusSet
  dsimp only
  rw [if_pos hid, if_pos hcur]

/-- Decomposition of the "changed" branch of the setter: the result is the
synchroniser applied to the state whose relay `id` carries the flood-updated
record. -/
theorem relayStatusSet_flood_eq (f : Nat) (env : Env) (t : Nat) (st : RelayState)
    (id : Nat) (s rep grp : Bool) (hid : id < st.relays.length)
    (hcur : ¬ (getRelay st id).current_status = s) :
    relayStatusSet (f + 1) env t st id s rep grp =
      (relaySyncF f env t
        (setRelay st id (floodUpdate env t (getRelay st id) s rep grp)) id, true) := by
  unfold relayStatusSet
  dsimp only
  rw [if_pos hid, if_neg hcur]

/-- The flood-updated record targets the requested status. -/
theorem floodUpdate_target (env : Env) (t : Nat) (r : RelayT) (s rep grp : Bool) :
    (floodUpdate env t r s rep grp).target_status = s := rfl

/-- Under the `AllSame` policy, a synchronisation pass entered with the flag
clear forces every relay's target to the triggering relay's target. -/
theorem relaySyncF_same_targets (f : Nat) (env : Env) (t : Nat) (st1 : RelayState)
    (id : Nat) (s : Bool)
    (hsync : env.rlySync = RELAY_SYNC_SAME)
    (hrec : st1.relayRecursive = false)
    (hid : id < st1.relays.length)
    (htgt : (getRelay st1 id).target_status = s) :
    ∀ j, j < st1.relays.length →
      (getRelay (relaySyncF (f + 2) env t st1 id) j).target_status = s := by
  intro j hj
  show (getRelay (relaySyncF (f + 1 + 1) env t st1 id) j).target_status = s
  unfold relaySyncF
  dsimp only
  by_cases hlen : st1.relays.length < 2
  · rw [if_pos hlen]
    have hje : j = id := by omega
    rw [hje]
    exact htgt
  · rw [if_neg hlen, if_neg (by rw [hrec]; simp : ¬ st1.relayRecursive = true),
      if_pos hsync]
    have hstatus : (getRelay { st1 with relayRecursive := true } id).target_status = s :=
      htgt
    rw [hstatus]
    have hstep : ∀ (k : Nat) (x : RelayState), k < st1.relays.length →
        (x.relays.length = st1.relays.length ∧ x.relayRecursive = true ∧
          (getRelay x id).target_status = s ∧
          (∀ j', j' < k → j' ≠ id → (getRelay x j').target_status = s)) →
        ((if k ≠ id then (relayStatusSet (f + 1) env t x k s true true).1
            else x).relays.length = st1.relays.length ∧
          (if k ≠ id then (relayStatusSet (f + 1) env t x k s true true).1
            else x).relayRecursive = true ∧
          (getRelay (if k ≠ id then (relayStatusSet (f + 1) env t x k s true true).1
            else x) id).target_status = s ∧
          (∀ j', j' < k + 1 → j' ≠ id →
            (getRelay (if k ≠ id then (relayStatusSet (f + 1) env t x k s true true).1
              else x) j').target_status = s)) := by
      intro k x hk ih
      by_cases hkid : k = id
      · rw [if_neg (by simp [hkid])]
        refine ⟨ih.1, ih.2.1, ih.2.2.1, ?_⟩
        intro j' hj' hj'id
        have : j' < k := by omega
        exact ih.2.2.2 j' this hj'id
      · rw [if_pos hkid]
        obtain ⟨h1, h2, h3⟩ :=
          relayStatusSet_of_recursive (f + 1) env t x k s true true ih.2.1
        refine ⟨h2.trans ih.1, h1, ?_, ?_⟩
        · rw [h3 id (fun e => hkid e.symm)]
          exact ih.2.2.1
        · intro j' hj' hj'id
          by_cases hj'k : j' = k
          · rw [hj'k]
            exact relayStatusSet_sets_target f env t x k s true true ih.2.1
              (by rw [ih.1]; exact hk)
          · rw [h3 j' hj'k]
            exact ih.2.2.2 j' (by omega) hj'id
    have key := range_fold_invariant
      (fun x i =>
        if i ≠ id then (relayStatusSet (f + 1) env t x i s true true).1 else x)
      (fun k x =>
        x.relays.length = st1.relays.length ∧ x.relayRecursive = true ∧
        (getRelay x id).target_status = s ∧
        ∀ j', j' < k → j' ≠ id → (getRelay x j').target_status = s)
      st1.relays.length
      ({ st1 with relayRecursive := true } : RelayState)
      ⟨rfl, rfl, htgt, fun j' hj' _ => absurd hj' (Nat.not_lt_zero j')⟩
      hstep
    by_cases hjid : j = id
    · rw [hjid]
      exact key.2.2.1
    · exact key.2.2.2 j hj hjid

/-! ### Scheduler (`_relayProcess` / `_relayLoop`) lemmas -/

/-- A scheduler step that hits one of the three skip guards changes
nothing. -/
theorem relayProcessStep_skip (env : Env) (t : Nat) (mode : Bool)
    (acc : RelayState × List (Nat × Bool)) (id : Nat)
    (h : (getRelay acc.1 id).target_status = (getRelay acc.1 id).current_status ∨
         ¬ (getRelay acc.1 id).target_status = mode ∨
         t < (getRelay acc.1 id).change_time) :
    relayProcessStep env t mode acc id = acc := by
  unfold relayProcessStep
  dsimp only
  rcases h with h | h | h
  · rw [if_pos h]
  · by_cases h1 : (getRelay acc.1 id).target_status = (getRelay acc.1 id).current_status
    · rw [if_pos h1]
    · rw [if_neg h1, if_pos (by simpa using h)]
  · by_cases h1 : (getRelay acc.1 id).target_status = (getRelay acc.1 id).current_status
    · rw [if_pos h1]
    · rw [if_neg h1]
      by_cases h2 : (getRelay acc.1 id).target_status ≠ mode
      · rw [if_pos h2]
      · rw [if_neg h2, if_pos h]

/-- A scheduler step on an unsettled, due relay of the requested mode:
the transition `(id, mode)` is appended to the trace, the relay's
`current_status` becomes `mode` while its target and schedule are unchanged,
and nothing else in the record vector moves. -/
theorem relayProcessStep_apply (env : Env) (t : Nat) (mode : Bool)
    (acc : RelayState × List (Nat × Bool)) (id : Nat)
    (hid : id < acc.1.relays.length)
    (h1 : ¬ (getRelay acc.1 id).target_status = (getRelay acc.1 id).current_status)
    (h2 : (getRelay acc.1 id).target_status = mode)
    (h3 : ¬ t < (getRelay acc.1 id).change_time) :
    (relayProcessStep env t mode acc id).2 = acc.2 ++ [(id, mode)] ∧
    (relayProcessStep env t mode acc id).1.relays.length = acc.1.relays.length ∧
    (relayProcessStep env t mode acc id).1.relayRecursive = acc.1.relayRecursive ∧
    (∀ j, j ≠ id → getRelay (relayProcessStep env t mode acc id).1 j = getRelay acc.1 j) ∧
    (getRelay (relayProcessStep env t mode acc id).1 id).target_status =
      (getRelay acc.1 id).target_status ∧
    (getRelay (relayProcessStep env t mode acc id).1 id).change_time =
      (getRelay acc.1 id).change_time ∧
    (getRelay (relayProcessStep env t mode acc id).1 id).current_status = mode := by
  unfold relayProcessStep
  dsimp only
  rw [if_neg h1, if_neg (by simpa using h2), if_neg h3]
  set st1 := relayProviderStatus acc.1 id (getRelay acc.1 id).target_status with hst1
  have hst1len : st1.relays.length = acc.1.relays.length := relayProviderStatus_length _ _ _
  have hst1rec : st1.relayRecursive = acc.1.relayRecursive := relayProviderStatus_recursive _ _ _
  have hst1ne : ∀ j, j ≠ id → getRelay st1 j = getRelay acc.1 j := by
    intro j hj
    exact getRelay_relayProviderStatus_ne _ _ _ _ (fun e => hj e.symm)
  have hst1self : getRelay st1 id =
      { getRelay acc.1 id with current_status := (getRelay acc.1 id).target_status } := by
    rw [hst1]
    unfold relayProviderStatus
    rw [if_pos hid]
    exact getRelay_setRelay_self _ _ _ hid
  set st2 := if !st1.relayRecursive then
      { relayPulseCore env st1 id with saveArmed := true } else st1 with hst2
  have hst2len : st2.relays.length = st1.relays.length := by
    rw [hst2]
    by_cases hb : !st1.relayRecursive
    · rw [if_pos hb]
      exact relayPulseCore_length _ _ _
    · rw [if_neg hb]
  have hst2rec : st2.relayRecursive = st1.relayRecursive := by
    rw [hst2]
    by_cases hb : !st1.relayRecursive
    · rw [if_pos hb]
      exact relayPulseCore_recursive _ _ _
    · rw [if_neg hb]
  have hst2ne : ∀ j, j ≠ id → getRelay st2 j = getRelay st1 j := by
    intro j hj
    rw [hst2]
    by_cases hb : !st1.relayRecursive
    · rw [if_pos hb]
      exact getRelay_relayPulseCore_ne _ _ _ _ hj
    · rw [if_neg hb]
  have hst2self : ∃ pu pm, getRelay st2 id =
      { getRelay st1 id with pulse := pu, pulse_ms := pm } := by
    rw [hst2]
    by_cases hb : !st1.relayRecursive
    · rw [if_pos hb]
      exact getRelay_relayPulseCore_self env st1 id (by rw [hst1len]; exact hid)
    · rw [if_neg hb]
      exact ⟨(getRelay st1 id).pulse, (getRelay st1 id).pulse_ms, rfl⟩
  have hid2 : id < st2.relays.length := by
    rw [hst2len, hst1len]
    exact hid
  obtain ⟨pu, pm, hpp⟩ := hst2self
  refine ⟨?_, ?_, ?_, ?_, ?_, ?_, ?_⟩
  · show acc.2 ++ [(id, (getRelay acc.1 id).target_status)] = acc.2 ++ [(id, mode)]
    rw [h2]
  · rw [length_setRelay, hst2len, hst1len]
  · show (setRelay st2 id _).relayRecursive = acc.1.relayRecursive
    rw [show ∀ r, (setRelay st2 id r).relayRecursive = st2.relayRecursive from fun _ => rfl,
      hst2rec, hst1rec]
  · intro j hj
    rw [getRelay_setRelay_ne _ _ _ _ (fun e => hj e.symm), hst2ne j hj, hst1ne j hj]
  · rw [getRelay_setRelay_self _ _ _ hid2, hpp, hst1self]
  · rw [getRelay_setRelay_self _ _ _ hid2, hpp, hst1self]
  · rw [getRelay_setRelay_self _ _ _ hid2, hpp, hst1self]
    exact h2

/-- The facts about one `_relayProcess` pass needed by the scheduler claims:
length and flag preservation; every trace entry applies the requested mode
and a valid index; the trace is strictly increasing in relay index (no
reordering); a relay whose `change_time` has not arrived is skipped with its
record untouched and absent from the trace; and every unsettled, due relay of
the requested mode is applied. -/
theorem relayProcess_facts (env : Env) (t : Nat) (mode : Bool) (st : RelayState) :
    (relayProcess env t mode st).1.relays.length = st.relays.length ∧
    (relayProcess env t mode st).1.relayRecursive = st.relayRecursive ∧
    (∀ e ∈ (relayProcess env t mode st).2, e.2 = mode ∧ e.1 < st.relays.length) ∧
    List.Pairwise (fun a b : Nat × Bool => a.1 < b.1) (relayProcess env t mode st).2 ∧
    (∀ j, t < (getRelay st j).change_time →
      getRelay (relayProcess env t mode st).1 j = getRelay st j ∧
      ∀ b, (j, b) ∉ (relayProcess env t mode st).2) ∧
    (∀ j, j < st.relays.length →
      ¬ (getRelay st j).target_status = (getRelay st j).current_status →
      (getRelay st j).target_status = mode →
      (getRelay st j).change_time ≤ t →
      (j, mode) ∈ (relayProcess env t mode st).2) := by
  have key := range_fold_invariant (relayProcessStep env t mode)
    (fun k acc =>
      acc.1.relays.length = st.relays.length ∧
      acc.1.relayRecursive = st.relayRecursive ∧
      (∀ e ∈ acc.2, e.2 = mode ∧ e.1 < k) ∧
      List.Pairwise (fun a b : Nat × Bool => a.1 < b.1) acc.2 ∧
      (∀ j, k ≤ j → getRelay acc.1 j = getRelay st j) ∧
      (∀ j, t < (getRelay st j).change_time →
        getRelay acc.1 j = getRelay st j ∧ ∀ b, (j, b) ∉ acc.2) ∧
      (∀ j, j < k →
        ¬ (getRelay st j).target_status = (getRelay st j).current_status →
        (getRelay st j).target_status = mode →
        (getRelay st j).change_time ≤ t → (j, mode) ∈ acc.2))
    st.relays.length (st, [])
    ⟨rfl, rfl, fun e he => absurd he (List.not_mem_nil e), List.Pairwise.nil,
      fun j _ => rfl, fun j _ => ⟨rfl, fun b hb => absurd hb (List.not_mem_nil _)⟩,
      fun j hj => absurd hj (Nat.not_lt_zero j)⟩
    ?_
  · refine ⟨key.1, key.2.1, ?_, key.2.2.2.1, key.2.2.2.2.2.1, key.2.2.2.2.2.2⟩
    intro e he
    exact key.2.2.1 e he
  · intro k acc hk ih
    obtain ⟨ihA, ihB, ihC, ihD, ihE, ihF, ihG⟩ := ih
    have hkacc : getRelay acc.1 k = getRelay st k := ihE k (Nat.le_refl k)
    by_cases happly : ¬ (getRelay acc.1 k).target_status = (getRelay acc.1 k).current_status ∧
        (getRelay acc.1 k).target_status = mode ∧ ¬ t < (getRelay acc.1 k).change_time
    · obtain ⟨h1, h2, h3⟩ := happly
      obtain ⟨sA, sB, sC, sD, sE, sF, sG⟩ :=
        relayProcessStep_apply env t mode acc k (by rw [ihA]; exact hk) h1 h2 h3
      refine ⟨sB.trans ihA, sC.trans ihB, ?_, ?_, ?_, ?_, ?_⟩
      · intro e he
        rw [sA] at he
        rcases List.mem_append.mp he with he | he
        · obtain ⟨hm, hlt⟩ := ihC e he
          exact ⟨hm, Nat.lt_succ_of_lt hlt⟩
        · rw [List.mem_singleton.mp he]
          exact ⟨rfl, Nat.lt_succ_self k⟩
      · rw [sA]
        rw [List.pairwise_append]
        refine ⟨ihD, List.pairwise_singleton _ _, ?_⟩
        intro a ha b hb
        rw [List.mem_singleton.mp hb]
        exact (ihC a ha).2
      · intro j hj
        rw [sD j (by omega), ihE j (by omega)]
      · intro j hjc
        by_cases hjk : j = k
        · subst hjk
          rw [hkacc] at h3
          exact absurd hjc h3
        · obtain ⟨hF1, hF2⟩ := ihF j hjc
          refine ⟨(sD j hjk).trans hF1, ?_⟩
          intro b hb
          rw [sA] at hb
          rcases List.mem_append.mp hb with hb | hb
          · exact hF2 b hb
          · rw [List.mem_singleton] at hb
            exact hjk (congrArg Prod.fst hb)
      · intro j hj hju hjm hjt
        rw [sA]
        by_cases hjk : j = k
        · subst hjk
          exact List.mem_append_right _ (List.mem_singleton.mpr rfl)
        · exact List.mem_append_left _ (ihG j (by omega) hju hjm hjt)
    · have hskip : relayProcessStep env t mode acc k = acc := by
        apply relayProcessStep_skip
        by_cases c1 : (getRelay acc.1 k).target_status = (getRelay acc.1 k).current_status
        · exact Or.inl c1
        · by_cases c2 : (getRelay acc.1 k).target_status = mode
          · by_cases c3 : t < (getRelay acc.1 k).change_time
            · exact Or.inr (Or.inr c3)
            · exact absurd ⟨c1, c2, c3⟩ happly
          · exact Or.inr (Or.inl c2)
      rw [hskip]
      refine ⟨ihA, ihB, ?_, ihD, ?_, ihF, ?_⟩
      · intro e he
        obtain ⟨hm, hlt⟩ := ihC e he
        exact ⟨hm, Nat.lt_succ_of_lt hlt⟩
      · intro j hj
        exact ihE j (by omega)
      · intro j hj hju hjm hjt
        by_cases hjk : j = k
        · subst hjk
          rw [← hkacc] at hju hjm hjt
          have : relayProcessStep env t mode acc j ≠ acc → False := fun h => h hskip
          exact absurd ⟨hju, hjm, by omega⟩ happly
        · exact ihG j (by omega) hju hjm hjt

/-- Per-relay effect of one `_relayProcess` pass on the scheduling fields:
targets and schedules are never modified; `current_status` becomes `mode`
exactly for the due relays targeting `mode`. -/
theorem relayProcess_settle (env : Env) (t : Nat) (mode : Bool) (st : RelayState) :
    ∀ j,
      (getRelay (relayProcess env t mode st).1 j).target_status =
        (getRelay st j).target_status ∧
      (getRelay (relayProcess env t mode st).1 j).change_time =
        (getRelay st j).change_time ∧
      (getRelay (relayProcess env t mode st).1 j).current_status =
        (if j < st.relays.length ∧ (getRelay st j).target_status = mode ∧
            (getRelay st j).change_time ≤ t
         then mode else (getRelay st j).current_status) := by
  have key := range_fold_invariant (relayProcessStep env t mode)
    (fun k acc =>
      acc.1.relays.length = st.relays.length ∧
      (∀ j,
        (getRelay acc.1 j).target_status = (getRelay st j).target_status ∧
        (getRelay acc.1 j).change_time = (getRelay st j).change_time ∧
        (getRelay acc.1 j).current_status =
          (if j < k ∧ (getRelay st j).target_status = mode ∧
              (getRelay st j).change_time ≤ t
           then mode else (getRelay st j).current_status)))
    st.relays.length (st, [])
    ⟨rfl, fun j => ⟨rfl, rfl, by rw [if_neg (by omega)]⟩⟩
    ?_
  · intro j
    obtain ⟨h1, h2, h3⟩ := key.2 j
    exact ⟨h1, h2, h3⟩
  · intro k acc hk ih
    obtain ⟨ihA, ihB⟩ := ih
    have hkT := (ihB k).1
    have hkC := (ihB k).2.1
    have hkS := (ihB k).2.2
    by_cases happly : ¬ (getRelay acc.1 k).target_status = (getRelay acc.1 k).current_status ∧
        (getRelay acc.1 k).target_status = mode ∧ ¬ t < (getRelay acc.1 k).change_time
    · obtain ⟨h1, h2, h3⟩ := happly
      obtain ⟨sA, sB, sC, sD, sE, sF, sG⟩ :=
        relayProcessStep_apply env t mode acc k (by rw [ihA]; exact hk) h1 h2 h3
      refine ⟨sB.trans ihA, ?_⟩
      intro j
      by_cases hjk : j = k
      · subst hjk
        refine ⟨sE.trans hkT, sF.trans hkC, ?_⟩
        rw [sG, if_pos ⟨by omega, by rw [← hkT]; exact h2, by rw [← hkC]; omega⟩]
      · obtain ⟨j1, j2, j3⟩ := ihB j
        refine ⟨(congrArg RelayT.target_status (sD j hjk)).trans j1,
          (congrArg RelayT.change_time (sD j hjk)).trans j2, ?_⟩
        rw [sD j hjk, j3]
        by_cases hcond : j < k ∧ (getRelay st j).target_status = mode ∧
            (getRelay st j).change_time ≤ t
        · rw [if_pos hcond, if_pos ⟨by omega, hcond.2.1, hcond.2.2⟩]
        · rw [if_neg hcond, if_neg (by
            intro hc
            exact hcond ⟨by omega, hc.2.1, hc.2.2⟩)]
    · have hskip : relayProcessStep env t mode acc k = acc := by
        apply relayProcessStep_skip
        by_cases c1 : (getRelay acc.1 k).target_status = (getRelay acc.1 k).current_status
        · exact Or.inl c1
        · by_cases c2 : (getRelay acc.1 k).target_status = mode
          · by_cases c3 : t < (getRelay acc.1 k).change_time
            · exact Or.inr (Or.inr c3)
            · exact absurd ⟨c1, c2, c3⟩ happly
          · exact Or.inr (Or.inl c2)
      rw [hskip]
      refine ⟨ihA, ?_⟩
      intro j
      obtain ⟨j1, j2, j3⟩ := ihB j
      refine ⟨j1, j2, ?_⟩
      rw [j3]
      by_cases hcond : j < k ∧ (getRelay st j).target_status = mode ∧
          (getRelay st j).change_time ≤ t
      · rw [if_pos hcond, if_pos ⟨by omega, hcond.2.1, hcond.2.2⟩]
      · by_cases hjk : j = k
        · subst hjk
          by_cases hcond' : j < j + 1 ∧ (getRelay st j).target_status = mode ∧
              (getRelay st j).change_time ≤ t
          · -- relay j = k is due for this mode but was skipped: it must have
            -- been settled already, so its current status equals the mode
            rw [if_neg hcond, if_pos hcond']
            by_cases c1 : (getRelay acc.1 j).target_status = (getRelay acc.1 j).current_status
            · rw [if_neg (by omega : ¬ (j < j ∧ (getRelay st j).target_status = mode ∧
                (getRelay st j).change_time ≤ t))] at hkS
              rw [← hkS, ← c1, hkT, hcond'.2.1]
            · by_cases c2 : (getRelay acc.1 j).target_status = mode
              · by_cases c3 : t < (getRelay acc.1 j).change_time
                · rw [hkC] at c3
                  omega
                · exact absurd ⟨c1, c2, c3⟩ happly
              · rw [hkT] at c2
                exact absurd hcond'.2.1 c2
          · rw [if_neg hcond, if_neg hcond']
        · have : ¬ (j < k + 1 ∧ (getRelay st j).target_status = mode ∧
              (getRelay st j).change_time ≤ t) := by
            intro hc
            exact hcond ⟨by omega, hc.2.1, hc.2.2⟩
          rw [if_neg hcond, if_neg this]

/-- After one full scheduler tick in which every relay's `change_time` has
arrived, every relay is settled at its (unchanged) target. -/
theorem relayLoop_settles (env : Env) (t : Nat) (st : RelayState)
    (hdue : ∀ j, j < st.relays.length → (getRelay st j).change_time ≤ t) :
    ∀ j, j < st.relays.length →
      (getRelay (relayLoop env t st).1 j).target_status = (getRelay st j).target_status ∧
      (getRelay (relayLoop env t st).1 j).current_status = (getRelay st j).target_status := by
  intro j hj
  have hp1 := relayProcess_settle env t false st
  have hp1len : (relayProcess env t false st).1.relays.length = st.relays.length :=
    (relayProcess_facts env t false st).1
  have hp2 := relayProcess_settle env t true (relayProcess env t false st).1
  have hloop : (relayLoop env t st).1 =
      (relayProcess env t true (relayProcess env t false st).1).1 := rfl
  rw [hloop]
  obtain ⟨a1, a2, a3⟩ := hp1 j
  obtain ⟨b1, b2, b3⟩ := hp2 j
  constructor
  · rw [b1, a1]
  · rw [b3]
    by_cases htgt : (getRelay st j).target_status = true
    · rw [if_pos ⟨by rw [hp1len]; exact hj, by rw [a1]; exact htgt,
        by rw [a2]; exact hdue j hj⟩]
      exact htgt.symm
    · rw [if_neg (by
        intro hc
        rw [a1] at hc
        exact htgt hc.2.1)]
      rw [a3, if_pos ⟨hj, by simpa using htgt, hdue j hj⟩]
      simp at htgt
      exact htgt.symm

/-! ### Claim C3 — scheduler ordering -/

/-- C3: in every tick, the OFF pass runs to completion before the ON pass
(the tick's trace is the OFF-pass trace followed by the ON-pass trace, and
each pass emits only its own mode); within a pass relays are applied in
strictly increasing index order with no reordering by delay; a relay whose
`change_time` has not arrived is left with its record byte-for-byte unchanged
and absent from the tick's trace (to be revisited next tick); and every
unsettled relay whose `change_time` has arrived is applied in this tick. -/
theorem c3_scheduler_ordering (env : Env) (t : Nat) (st : RelayState) :
    (relayLoop env t st).2 =
      (relayProcess env t false st).2 ++
        (relayProcess env t true (relayProcess env t false st).1).2 ∧
    (∀ e ∈ (relayProcess env t false st).2, e.2 = false) ∧
    (∀ e ∈ (relayProcess env t true (relayProcess env t false st).1).2, e.2 = true) ∧
    (∀ (mode : Bool) (st2 : RelayState),
      List.Pairwise (fun a b : Nat × Bool => a.1 < b.1) (relayProcess env t mode st2).2) ∧
    (∀ j, t < (getRelay st j).change_time →
      getRelay (relayLoop env t st).1 j = getRelay st j ∧
      ∀ b, (j, b) ∉ (relayLoop env t st).2) ∧
    (∀ j, j < relayCount st →
      ¬ (getRelay st j).target_status = (getRelay st j).current_status →
      (getRelay st j).change_time ≤ t →
      (j, (getRelay st j).target_status) ∈ (relayLoop env t st).2) := by
  have f1 := relayProcess_facts env t false st
  have f2 := relayProcess_facts env t true (relayProcess env t false st).1
  have htr : (relayLoop env t st).2 =
      (relayProcess env t false st).2 ++
        (relayProcess env t true (relayProcess env t false st).1).2 := rfl
  refine ⟨htr, fun e he => (f1.2.2.1 e he).1, fun e he => (f2.2.2.1 e he).1,
    fun mode st2 => (relayProcess_facts env t mode st2).2.2.2.1, ?_, ?_⟩
  · intro j hjc
    obtain ⟨hrec1, hnot1⟩ := f1.2.2.2.2.1 j hjc
    have hjc2 : t < (getRelay (relayProcess env t false st).1 j).change_time := by
      rw [hrec1]
      exact hjc
    obtain ⟨hrec2, hnot2⟩ := f2.2.2.2.2.1 j hjc2
    refine ⟨?_, ?_⟩
    · show getRelay (relayProcess env t true (relayProcess env t false st).1).1 j =
        getRelay st j
      rw [hrec2, hrec1]
    · intro b hb
      rw [htr] at hb
      rcases List.mem_append.mp hb with hb | hb
      · exact hnot1 b hb
      · exact hnot2 b hb
  · intro j hj hju hjt
    by_cases htgt : (getRelay st j).target_status = false
    · have hmem := f1.2.2.2.2.2 j hj hju htgt hjt
      rw [htr, htgt]
      exact List.mem_append_left _ hmem
    · have htgt' : (getRelay st j).target_status = true := by simpa using htgt
      obtain ⟨a1, a2, a3⟩ := relayProcess_settle env t false st j
      have ha3 : (getRelay (relayProcess env t false st).1 j).current_status =
          (getRelay st j).current_status := by
        rw [a3, if_neg (by
          intro hc
          rw [htgt'] at hc
          exact Bool.true_eq_false.mp hc.2.1)]
      have hmem := f2.2.2.2.2.2 j (by rw [f1.1]; exact hj)
        (by rw [a1, ha3]; exact hju)
        (by rw [a1]; exact htgt')
        (by rw [a2]; exact hjt)
      rw [htr, htgt']
      exact List.mem_append_right _ hmem

/-- C3 witness: at `t = 50` on the three-relay scenario, the tick's trace is
the OFF-pass trace followed by the ON-pass trace; relay 2 (due at 100) is
untouched and unapplied, and the due relay 1 is applied. -/
theorem c3_scheduler_ordering_witness :
    (relayLoop cEnv 50 cStSched).2 =
      (relayProcess cEnv 50 false cStSched).2 ++
        (relayProcess cEnv 50 true (relayProcess cEnv 50 false cStSched).1).2 ∧
    getRelay (relayLoop cEnv 50 cStSched).1 2 = getRelay cStSched 2 ∧
    (∀ b, (2, b) ∉ (relayLoop cEnv 50 cStSched).2) ∧
    (1, (getRelay cStSched 1).target_status) ∈ (relayLoop cEnv 50 cStSched).2 := by
  refine ⟨(c3_scheduler_ordering cEnv 50 cStSched).1, ?_, ?_, ?_⟩
  · exact ((c3_scheduler_ordering cEnv 50 cStSched).2.2.2.2.1 2 (by decide)).1
  · exact ((c3_scheduler_ordering cEnv 50 cStSched).2.2.2.2.1 2 (by decide)).2
  · exact (c3_scheduler_ordering cEnv 50 cStSched).2.2.2.2.2 1 (by decide) (by decide)
      (by decide)

/-! ### Flood-window arithmetic -/

theorem U32_eq : U32 = 4294967296 := rfl

theorem U8_eq : U8 = 256 := rfl

theorem sub32_of_le (a b : Nat) (hb : b ≤ a) (ha : a < U32) : sub32 a b = a - b := by
  unfold sub32
  have hbU : b < U32 := by omega
  rw [Nat.mod_eq_of_lt hbU]
  have h1 : a + (U32 - b) = U32 + (a - b) := by omega
  rw [h1, Nat.add_mod_left, Nat.mod_eq_of_lt (by omega)]

theorem sub32_of_gt (a b : Nat) (hab : a < b) (hbU : b < U32) : sub32 a b = a + U32 - b := by
  unfold sub32
  rw [Nat.mod_eq_of_lt hbU]
  have h1 : a + (U32 - b) = a + U32 - b := by omega
  rw [h1, Nat.mod_eq_of_lt (by omega)]

/-- An in-window request (no wraparound, counter not saturating) leaves the
window anchor and the configuration untouched and increments the counter. -/
theorem floodUpdate_in_window (env : Env) (t : Nat) (r : RelayT) (s rep grp : Bool)
    (hwin : r.fw_start ≤ t ∧ t < r.fw_start + 1000 * env.floodWindow)
    (hnof : r.fw_start + 1000 * env.floodWindow < U32)
    (hcnt : r.fw_count + 1 < U8) :
    (floodUpdate env t r s rep grp).fw_start = r.fw_start ∧
    (floodUpdate env t r s rep grp).fw_count = r.fw_count + 1 ∧
    (floodUpdate env t r s rep grp).current_status = r.current_status ∧
    (floodUpdate env t r s rep grp).delay_on = r.delay_on ∧
    (floodUpdate env t r s rep grp).delay_off = r.delay_off := by
  unfold floodUpdate
  dsimp only
  rw [Nat.mod_eq_of_lt hnof]
  rw [if_neg (by omega : ¬ (t < r.fw_start ∨ r.fw_start + 1000 * env.floodWindow ≤ t))]
  rw [Nat.mod_eq_of_lt hcnt]
  by_cases hfc : env.floodChanges ≤ r.fw_count + 1
  · rw [if_pos hfc]
    by_cases hsub : t < sub32 (r.fw_start + 1000 * env.floodWindow)
        (if s then r.delay_on else r.delay_off)
    · rw [if_pos hsub]
      exact ⟨rfl, rfl, rfl, rfl, rfl⟩
    · rw [if_neg hsub]
      exact ⟨rfl, rfl, rfl, rfl, rfl⟩
  · rw [if_neg hfc]
    exact ⟨rfl, rfl, rfl, rfl, rfl⟩

/-- An in-window request that has reached the flood threshold schedules the
change at or after the window end; when the direction's delay does not exceed
the absolute window end (no unsigned-subtraction wraparound), the scheduled
time is exactly the later of the window end and `now + delay`. -/
theorem floodUpdate_flood_branch (env : Env) (t : Nat) (r : RelayT) (s rep grp : Bool)
    (hwin : r.fw_start ≤ t ∧ t < r.fw_start + 1000 * env.floodWindow)
    (hnof : r.fw_start + 1000 * env.floodWindow < U32)
    (hcnt : r.fw_count + 1 < U8)
    (hthr : env.floodChanges ≤ r.fw_count + 1)
    (hdel : t + (if s then r.delay_on else r.delay_off) < U32) :
    r.fw_start + 1000 * env.floodWindow ≤ (floodUpdate env t r s rep grp).change_time ∧
    ((if s then r.delay_on else r.delay_off) ≤ r.fw_start + 1000 * env.floodWindow →
      (floodUpdate env t r s rep grp).change_time =
        max (r.fw_start + 1000 * env.floodWindow)
          (t + (if s then r.delay_on else r.delay_off))) := by
  unfold floodUpdate
  dsimp only
  rw [Nat.mod_eq_of_lt hnof]
  rw [if_neg (by omega : ¬ (t < r.fw_start ∨ r.fw_start + 1000 * env.floodWindow ≤ t))]
  rw [Nat.mod_eq_of_lt hcnt, if_pos hthr]
  rcases le_or_lt (if s then r.delay_on else r.delay_off)
      (r.fw_start + 1000 * env.floodWindow) with hd | hd
  · rw [sub32_of_le _ _ hd hnof]
    by_cases hsub : t < r.fw_start + 1000 * env.floodWindow -
        (if s then r.delay_on else r.delay_off)
    · rw [if_pos hsub]
      refine ⟨Nat.le_refl _, fun _ => ?_⟩
      have : t + (if s then r.delay_on else r.delay_off) <
          r.fw_start + 1000 * env.floodWindow := by omega
      simp [Nat.max_eq_left (Nat.le_of_lt this)]
    · rw [if_neg hsub]
      have hge : r.fw_start + 1000 * env.floodWindow ≤
          t + (if s then r.delay_on else r.delay_off) := by omega
      rw [Nat.mod_eq_of_lt hdel]
      exact ⟨hge, fun _ => (Nat.max_eq_right hge).symm⟩
  · rw [sub32_of_gt _ _ hd (by omega)]
    rw [if_pos (by omega : t < r.fw_start + 1000 * env.floodWindow + U32 -
      (if s then r.delay_on else r.delay_off))]
    exact ⟨Nat.le_refl _, fun hc => absurd hd (by omega)⟩

/-- Folding a list of opposite-direction requests whose times all lie inside
the current flood window: the window anchor, the current status and the
configured delays are preserved and the counter grows by one per request. -/
theorem c1_requests_fold (env : Env) (s : Bool) (t0 don doff : Nat) (c0 : Bool)
    (hc0 : ¬ c0 = s) :
    ∀ (ts : List Nat) (st : RelayState) (id k : Nat),
      id < st.relays.length → st.relayRecursive = false →
      (getRelay st id).current_status = c0 →
      (getRelay st id).fw_start = t0 →
      (getRelay st id).fw_count = k →
      (getRelay st id).delay_on = don →
      (getRelay st id).delay_off = doff →
      k + ts.length < U8 →
      t0 + 1000 * env.floodWindow < U32 →
      (∀ u ∈ ts, t0 ≤ u ∧ u < t0 + 1000 * env.floodWindow) →
      (id < (ts.foldl (fun x u => (relayStatus2 env u x id s).1) st).relays.length ∧
       (ts.foldl (fun x u => (relayStatus2 env u x id s).1) st).relayRecursive = false ∧
       (getRelay (ts.foldl (fun x u => (relayStatus2 env u x id s).1) st) id).current_status
         = c0 ∧
       (getRelay (ts.foldl (fun x u => (relayStatus2 env u x id s).1) st) id).fw_start = t0 ∧
       (getRelay (ts.foldl (fun x u => (relayStatus2 env u x id s).1) st) id).fw_count
         = k + ts.length ∧
       (getRelay (ts.foldl (fun x u => (relayStatus2 env u x id s).1) st) id).delay_on
         = don ∧
       (getRelay (ts.foldl (fun x u => (relayStatus2 env u x id s).1) st) id).delay_off
         = doff) := by
  intro ts
  induction ts with
  | nil =>
    intro st id k hid hrec hcur hfw hk hdon hdoff hcnt hnof hwin
    exact ⟨hid, hrec, hcur, hfw, by simpa using hk, hdon, hdoff⟩
  | cons u us ih =>
    intro st id k hid hrec hcur hfw hk hdon hdoff hcnt hnof hwin
    rw [List.foldl_cons]
    have hcur' : ¬ (getRelay st id).current_status = s := by rw [hcur]; exact hc0
    have hstep := relayStatusSet_flood 3 env u st id s true true hid hcur'
    have hwinu : (getRelay st id).fw_start ≤ u ∧
        u < (getRelay st id).fw_start + 1000 * env.floodWindow := by
      rw [hfw]
      exact hwin u (List.mem_cons_self u us)
    have hnofu : (getRelay st id).fw_start + 1000 * env.floodWindow < U32 := by
      rw [hfw]; exact hnof
    have hcntu : (getRelay st id).fw_count + 1 < U8 := by
      rw [hk]
      have : us.length + 1 = (u :: us).length := rfl
      omega
    have hflood := floodUpdate_in_window env u (getRelay st id) s true true hwinu hnofu hcntu
    have hmid : relayStatus2 env u st id s =
        relayStatusSet (3 + 1) env u st id s true true := rfl
    rw [hmid]
    have hlen : k + (u :: us).length = k + 1 + us.length := by
      simp only [List.length_cons]
      omega
    rw [hlen]
    refine ih ((relayStatusSet (3 + 1) env u st id s true true).1) id (k + 1)
      ?_ ?_ ?_ ?_ ?_ ?_ ?_ ?_ hnof ?_
    · rw [hstep.1]; exact hid
    · rw [hstep.2.1]; exact hrec
    · rw [hstep.2.2.2, hflood.2.2.1]; exact hcur
    · rw [hstep.2.2.2, hflood.1]; exact hfw
    · rw [hstep.2.2.2, hflood.2.1, hk]
    · rw [hstep.2.2.2, hflood.2.2.2.1]; exact hdon
    · rw [hstep.2.2.2, hflood.2.2.2.2]; exact hdoff
    · have : (u :: us).length = us.length + 1 := rfl
      omega
    · intro v hv
      exact hwin v (List.mem_cons_of_mem u hv)

/-- C1: flood protection.  Starting from a relay whose flood window was just
opened at `t0` (`fw_count = 1`, i.e. one request already counted), after
`ts.length` further opposite-direction requests inside the window, a final
request at `tl` — the `(T+1)`-th request of the window when
`ts.length + 2 = T + 1` — is scheduled no earlier than the window end
`t0 + 1000·W`; with `delay = 0` it is scheduled exactly at the window end
(the claim's concrete scenario), and whenever the direction's delay does not
exceed the absolute window end, the scheduled time is exactly the later of
the window end and `tl + delay`. -/
theorem c1_flood_protection (env : Env) (st : RelayState) (id : Nat) (s : Bool)
    (ts : List Nat) (tl t0 delay : Nat)
    (hid : id < relayCount st)
    (hrec : st.relayRecursive = false)
    (hcur : ¬ (getRelay st id).current_status = s)
    (hfw : (getRelay st id).fw_start = t0)
    (hcount : (getRelay st id).fw_count = 1)
    (hdeleq : (if s then (getRelay st id).delay_on else (getRelay st id).delay_off) = delay)
    (hwin : ∀ u ∈ ts ++ [tl], t0 ≤ u ∧ u < t0 + 1000 * env.floodWindow)
    (hthr : env.floodChanges + 1 = ts.length + 2)
    (hcnt : ts.length + 2 < U8)
    (hnof : t0 + 1000 * env.floodWindow < U32)
    (hdel : tl + delay < U32) :
    t0 + 1000 * env.floodWindow ≤
      (getRelay ((ts ++ [tl]).foldl (fun x u => (relayStatus2 env u x id s).1) st)
        id).change_time ∧
    (delay = 0 →
      (getRelay ((ts ++ [tl]).foldl (fun x u => (relayStatus2 env u x id s).1) st)
        id).change_time = t0 + 1000 * env.floodWindow) ∧
    (delay ≤ t0 + 1000 * env.floodWindow →
      (getRelay ((ts ++ [tl]).foldl (fun x u => (relayStatus2 env u x id s).1) st)
        id).change_time = max (t0 + 1000 * env.floodWindow) (tl + delay)) := by
  have hid' : id < st.relays.length := hid
  have hc0 : ¬ (getRelay st id).current_status = s := hcur
  have hfold := c1_requests_fold env s t0 (getRelay st id).delay_on
    (getRelay st id).delay_off (getRelay st id).current_status hc0 ts st id 1
    hid' hrec rfl hfw hcount rfl rfl
    (by omega) hnof (fun u hu => hwin u (List.mem_append_left _ hu))
  rw [List.foldl_append]
  set mid := ts.foldl (fun x u => (relayStatus2 env u x id s).1) st with hmid
  rw [show ([tl].foldl (fun x u => (relayStatus2 env u x id s).1) mid) =
    (relayStatus2 env tl mid id s).1 from rfl]
  have hcurm : ¬ (getRelay mid id).current_status = s := by
    rw [hfold.2.2.1]; exact hc0
  have hstep := relayStatusSet_flood 3 env tl mid id s true true hfold.1 hcurm
  have hwintl : (getRelay mid id).fw_start ≤ tl ∧
      tl < (getRelay mid id).fw_start + 1000 * env.floodWindow := by
    rw [hfold.2.2.2.1]
    exact hwin tl (List.mem_append_right _ (List.mem_singleton.mpr rfl))
  have hnoftl : (getRelay mid id).fw_start + 1000 * env.floodWindow < U32 := by
    rw [hfold.2.2.2.1]; exact hnof
  have hcnttl : (getRelay mid id).fw_count + 1 < U8 := by
    rw [hfold.2.2.2.2.1]; omega
  have hthrtl : env.floodChanges ≤ (getRelay mid id).fw_count + 1 := by
    rw [hfold.2.2.2.2.1]; omega
  have hdelm : (if s then (getRelay mid id).delay_on else (getRelay mid id).delay_off)
      = delay := by
    rw [hfold.2.2.2.2.2.1, hfold.2.2.2.2.2.2]
    exact hdeleq
  have hdeltl : tl + (if s then (getRelay mid id).delay_on else (getRelay mid id).delay_off)
      < U32 := by
    rw [hdelm]; exact hdel
  have hflood := floodUpdate_flood_branch env tl (getRelay mid id) s true true
    hwintl hnoftl hcnttl hthrtl hdeltl
  rw [show relayStatus2 env tl mid id s = relayStatusSet (3 + 1) env tl mid id s true true
    from rfl]
  rw [hstep.2.2.2]
  rw [hfold.2.2.2.1, hdelm] at hflood
  refine ⟨hflood.1, ?_, hflood.2⟩
  intro hd0
  have := hflood.2 (by omega)
  rw [this, hd0]
  have htl : tl < t0 + 1000 * env.floodWindow :=
    (hwin tl (List.mem_append_right _ (List.mem_singleton.mpr rfl))).2
  omega

/-- C1 witness: the claim's concrete scenario — window 3 s, threshold 5,
zero delay, six requests inside one second — schedules the sixth change
exactly at `fw_start + 3000` ms. -/
theorem c1_flood_protection_witness :
    cEnv.floodChanges = 5 ∧ cEnv.floodWindow = 3 ∧
    (getRelay cStFlood 0).fw_count = 1 ∧ (getRelay cStFlood 0).fw_start = 0 ∧
    (getRelay (([100, 200, 300, 400] ++ [500]).foldl
        (fun x u => (relayStatus2 cEnv u x 0 true).1) cStFlood) 0).change_time
      = 0 + 1000 * cEnv.floodWindow := by
  refine ⟨rfl, rfl, by decide, by decide, ?_⟩
  exact (c1_flood_protection cEnv cStFlood 0 true [100, 200, 300, 400] 500 0 0
    (by decide) (by decide) (by decide) (by decide) (by decide) (by decide)
    (by decide) (by decide) (by decide) (by decide) (by decide)).2.1 rfl

/-! ### 8-bit mask arithmetic (`relaySave` / `_relayBoot`) -/

/-- The 8-bit `bit` accumulator: doubling wraps to zero from bit 8 on. -/
theorem two_pow_mod_U8 (k : Nat) : 2 ^ k % U8 = if k < 8 then 2 ^ k else 0 := by
  by_cases h : k < 8
  · rw [if_pos h]
    apply Nat.mod_eq_of_lt
    calc 2 ^ k ≤ 2 ^ 7 := Nat.pow_le_pow_right (by omega) (by omega)
      _ < U8 := by rw [U8_eq]; omega
  · rw [if_neg h]
    have : 2 ^ k = U8 * 2 ^ (k - 8) := by
      rw [show U8 = 2 ^ 8 from rfl, ← pow_add]
      congr 1
      omega
    rw [this]
    exact Nat.mul_mod_right _ _

theorem and_two_pow_eq_iff (M i : Nat) : (M &&& 2 ^ i = 2 ^ i) ↔ M.testBit i = true := by
  rw [Nat.and_two_pow]
  cases h : M.testBit i
  · constructor
    · intro e
      simp only [Bool.toNat_false, Nat.zero_mul] at e
      exact absurd e.symm (Nat.two_pow_pos i).ne'
    · intro e
      cases e
  · simp

/-- Binary expansion: the low `L` bits of `M` sum to `M % 2^L`. -/
theorem sum_testBit_mod (L M : Nat) :
    (Finset.range L).sum (fun i => if M.testBit i then 2 ^ i else 0) = M % 2 ^ L := by
  induction L with
  | zero => simp [Nat.mod_one]
  | succ L ih =>
    rw [Finset.sum_range_succ, ih, Nat.mod_pow_succ, Nat.testBit_to_div_mod]
    by_cases h : M / 2 ^ L % 2 = 1
    · rw [if_pos (by simp [h]), h, Nat.mul_one]
    · have h0 : M / 2 ^ L % 2 = 0 := by omega
      rw [if_neg (by simp [h]), h0, Nat.mul_zero, Nat.add_zero]

/-- `relaySave`'s 8-bit accumulation keeps exactly the low
`min (count, 8)` relays' statuses. -/
theorem relaySaveMask_eq (st : RelayState) :
    relaySaveMask st =
      (Finset.range (min st.relays.length 8)).sum
        (fun i => if relayStatusGet st i then 2 ^ i else 0) := by
  have key := range_fold_invariant
    (fun (p : Nat × Nat) i =>
      (if relayStatusGet st i then (p.1 + p.2) % U8 else p.1, (p.2 + p.2) % U8))
    (fun k p =>
      p.2 = 2 ^ k % U8 ∧
      p.1 = (Finset.range (min k 8)).sum
        (fun i => if relayStatusGet st i then 2 ^ i else 0) ∧
      p.1 < 2 ^ min k 8)
    st.relays.length (0, 1)
    ⟨by rw [two_pow_mod_U8, if_pos (by omega)]; norm_num, by simp, by simp⟩
    ?_
  · exact key.2.1
  · intro k p hk ih
    obtain ⟨ihbit, ihmask, ihlt⟩ := ih
    dsimp only
    have hbit' : (p.2 + p.2) % U8 = 2 ^ (k + 1) % U8 := by
      rw [ihbit, ← Nat.add_mod, show 2 ^ k + 2 ^ k = 2 ^ (k + 1) from by ring]
    by_cases h8 : k < 8
    · rw [show min k 8 = k from by omega] at ihmask ihlt
      have hbitk : p.2 = 2 ^ k := by rw [ihbit, two_pow_mod_U8, if_pos h8]
      have hpow : 2 ^ (k + 1) ≤ U8 := by
        rw [U8_eq]
        calc 2 ^ (k + 1) ≤ 2 ^ 8 := Nat.pow_le_pow_right (by omega) (by omega)
          _ = 256 := by norm_num
      have hstep : 2 ^ k + 2 ^ k = 2 ^ (k + 1) := by ring
      refine ⟨hbit', ?_, ?_⟩
      · rw [show min (k + 1) 8 = k + 1 from by omega, Finset.sum_range_succ, ← ihmask]
        by_cases hget : relayStatusGet st k
        · rw [if_pos hget, if_pos hget, hbitk,
            Nat.mod_eq_of_lt (by omega)]
        · rw [if_neg hget, if_neg hget, Nat.add_zero]
      · rw [show min (k + 1) 8 = k + 1 from by omega]
        by_cases hget : relayStatusGet st k
        · rw [if_pos hget, hbitk, Nat.mod_eq_of_lt (by omega)]
          omega
        · rw [if_neg hget]
          omega
    · rw [show min k 8 = 8 from by omega] at ihmask ihlt
      have hbitk : p.2 = 0 := by rw [ihbit, two_pow_mod_U8, if_neg h8]
      have hlt8 : p.1 < U8 := by
        rw [U8_eq]
        calc p.1 < 2 ^ 8 := ihlt
          _ ≤ 256 := by norm_num
      refine ⟨hbit', ?_, ?_⟩
      · rw [show min (k + 1) 8 = 8 from by omega]
        by_cases hget : relayStatusGet st k
        · rw [if_pos hget, hbitk, Nat.add_zero, Nat.mod_eq_of_lt hlt8, ihmask]
        · rw [if_neg hget, ihmask]
      · rw [show min (k + 1) 8 = 8 from by omega]
        by_cases hget : relayStatusGet st k
        · rw [if_pos hget, hbitk, Nat.add_zero, Nat.mod_eq_of_lt hlt8]
          exact ihlt
        · rw [if_neg hget]
          exact ihlt

/-- Doubling the 8-bit accumulator. -/
theorem double_pow_mod_U8 (k : Nat) : (2 ^ k % U8 + 2 ^ k % U8) % U8 = 2 ^ (k + 1) % U8 := by
  rw [← Nat.add_mod, show 2 ^ k + 2 ^ k = 2 ^ (k + 1) from by ring]

/-- The epilogue of `_relayBoot` (conditional re-save, flag clear) does not
change any relay record. -/
theorem getRelay_boot_final (res : RelayState × Nat × Nat × Bool) (i : Nat) :
    getRelay { (if res.2.2.2 then { res.1 with eeprom := res.2.2.1 } else res.1) with
      relayRecursive := false } i = getRelay res.1 i := by
  by_cases h : res.2.2.2
  · rw [if_pos h]
    rfl
  · rw [if_neg h]
    rfl

/-- The `_relayBoot` epilogue does not change the record vector. -/
theorem bootFinal_relays (res : RelayState × Nat × Nat × Bool) :
    ({ (if res.2.2.2 then { res.1 with eeprom := res.2.2.1 } else res.1) with
      relayRecursive := false } : RelayState).relays = res.1.relays := by
  by_cases h : res.2.2.2
  · rw [if_pos h]
  · rw [if_neg h]

/-- The `_relayBoot` epilogue does not write the EEPROM when no `Toggle`
policy triggered a re-save. -/
theorem bootFinal_eeprom (res : RelayState × Nat × Nat × Bool)
    (h : res.2.2.2 = false) :
    ({ (if res.2.2.2 then { res.1 with eeprom := res.2.2.1 } else res.1) with
      relayRecursive := false } : RelayState).eeprom = res.1.eeprom := by
  rw [if_neg (by simp [h])]

/-- The `_relayBoot` walk when every relay's boot policy is `Same`: no
re-save is triggered, the mask is returned unchanged, and relay `i` is seeded
with target `(mask & (2^i mod 256)) == (2^i mod 256)` and the inverted
current status. -/
theorem relayBootFold_same (env : Env) (t : Nat) (st : RelayState)
    (hboot : ∀ i, env.rlyBoot i = RELAY_BOOT_SAME) :
    ((List.range st.relays.length).foldl (relayBootStep env t)
        ({ st with relayRecursive := true }, 1, st.eeprom % U8, false)).2.2.2 = false ∧
    ((List.range st.relays.length).foldl (relayBootStep env t)
        ({ st with relayRecursive := true }, 1, st.eeprom % U8, false)).2.2.1
      = st.eeprom % U8 ∧
    ((List.range st.relays.length).foldl (relayBootStep env t)
        ({ st with relayRecursive := true }, 1, st.eeprom % U8, false)).1.relays.length
      = st.relays.length ∧
    ((List.range st.relays.length).foldl (relayBootStep env t)
        ({ st with relayRecursive := true }, 1, st.eeprom % U8, false)).1.eeprom
      = st.eeprom ∧
    (∀ i, i < st.relays.length →
      getRelay ((List.range st.relays.length).foldl (relayBootStep env t)
        ({ st with relayRecursive := true }, 1, st.eeprom % U8, false)).1 i =
        { getRelay st i with
          current_status := !(decide (st.eeprom % U8 &&& 2 ^ i % U8 = 2 ^ i % U8))
          target_status := decide (st.eeprom % U8 &&& 2 ^ i % U8 = 2 ^ i % U8)
          change_time := t }) := by
  have key := range_fold_invariant (relayBootStep env t)
    (fun k acc =>
      acc.2.1 = 2 ^ k % U8 ∧
      acc.2.2.1 = st.eeprom % U8 ∧
      acc.2.2.2 = false ∧
      acc.1.relays.length = st.relays.length ∧
      acc.1.eeprom = st.eeprom ∧
      (∀ i, k ≤ i → getRelay acc.1 i = getRelay st i) ∧
      (∀ i, i < k → i < st.relays.length →
        getRelay acc.1 i =
          { getRelay st i with
            current_status := !(decide (st.eeprom % U8 &&& 2 ^ i % U8 = 2 ^ i % U8))
            target_status := decide (st.eeprom % U8 &&& 2 ^ i % U8 = 2 ^ i % U8)
            change_time := t }))
    st.relays.length
    ({ st with relayRecursive := true }, 1, st.eeprom % U8, false)
    ⟨by rw [two_pow_mod_U8, if_pos (by omega)]; norm_num, rfl, rfl, rfl, rfl,
      fun i _ => rfl, fun i hi _ => absurd hi (Nat.not_lt_zero i)⟩
    ?_
  · exact ⟨key.2.2.1, key.2.1, key.2.2.2.1, key.2.2.2.2.1,
      fun i hi => key.2.2.2.2.2.2 i hi hi⟩
  · intro k acc hk ih
    obtain ⟨ihbit, ihmask, ihtrig, ihlen, ihee, ihuntouched, ihdone⟩ := ih
    unfold relayBootStep
    dsimp only
    rw [hboot k, if_pos rfl]
    dsimp only
    have hkacc : getRelay acc.1 k = getRelay st k := ihuntouched k (Nat.le_refl k)
    have hklen : k < acc.1.relays.length := by omega
    refine ⟨?_, ihmask, ihtrig, ?_, ?_, ?_, ?_⟩
    · rw [ihbit]
      exact double_pow_mod_U8 k
    · rw [length_setRelay]
      exact ihlen
    · rw [show ∀ r, (setRelay acc.1 k r).eeprom = acc.1.eeprom from fun _ => rfl]
      exact ihee
    · intro i hi
      rw [getRelay_setRelay_ne _ _ _ _ (by omega)]
      exact ihuntouched i (by omega)
    · intro i hi hilen
      by_cases hik : i = k
      · subst hik
        rw [getRelay_setRelay_self _ _ _ hklen, hkacc, ihmask, ihbit]
      · rw [getRelay_setRelay_ne _ _ _ _ (fun e => hik e.symm)]
        exact ihdone i (by omega) hilen

/-- `_relayBoot` with all boot policies `Same`: length, flag, persisted byte
and the per-relay seeding. -/
theorem relayBoot_same_spec (env : Env) (t : Nat) (st : RelayState)
    (hboot : ∀ i, env.rlyBoot i = RELAY_BOOT_SAME) :
    (relayBoot env t st).relays.length = st.relays.length ∧
    (relayBoot env t st).relayRecursive = false ∧
    (relayBoot env t st).eeprom = st.eeprom ∧
    (∀ i, i < st.relays.length →
      getRelay (relayBoot env t st) i =
        { getRelay st i with
          current_status := !(decide (st.eeprom % U8 &&& 2 ^ i % U8 = 2 ^ i % U8))
          target_status := decide (st.eeprom % U8 &&& 2 ^ i % U8 = 2 ^ i % U8)
          change_time := t }) := by
  have key := relayBootFold_same env t st hboot
  unfold relayBoot
  dsimp only
  refine ⟨?_, rfl, ?_, ?_⟩
  · rw [bootFinal_relays]
    exact key.2.2.1
  · rw [bootFinal_eeprom _ key.1]
    exact key.2.2.2.1
  · intro i hi
    rw [getRelay_boot_final]
    exact key.2.2.2.2 i hi

/-- From relay 8 on, the 8-bit `bit` has wrapped to zero, so `_relayBoot`
seeds those relays independently of the persisted mask: `Same` restores
"true" (`mask & 0 == 0`), `Toggle` "false", `On` "true", everything else
"false", whatever byte was read. -/
theorem relayBoot_high (env : Env) (t : Nat) (st : RelayState) :
    ∀ i, 8 ≤ i → i < st.relays.length →
      getRelay (relayBoot env t st) i =
        { getRelay st i with
          current_status := !(if env.rlyBoot i = RELAY_BOOT_SAME then true
            else if env.rlyBoot i = RELAY_BOOT_TOGGLE then false
            else if env.rlyBoot i = RELAY_BOOT_ON then true else false)
          target_status := (if env.rlyBoot i = RELAY_BOOT_SAME then true
            else if env.rlyBoot i = RELAY_BOOT_TOGGLE then false
            else if env.rlyBoot i = RELAY_BOOT_ON then true else false)
          change_time := t } := by
  have key := range_fold_invariant (relayBootStep env t)
    (fun k acc =>
      acc.2.1 = 2 ^ k % U8 ∧
      acc.1.relays.length = st.relays.length ∧
      (∀ i, k ≤ i → getRelay acc.1 i = getRelay st i) ∧
      (∀ i, 8 ≤ i → i < k →
        getRelay acc.1 i =
          { getRelay st i with
            current_status := !(if env.rlyBoot i = RELAY_BOOT_SAME then true
              else if env.rlyBoot i = RELAY_BOOT_TOGGLE then false
              else if env.rlyBoot i = RELAY_BOOT_ON then true else false)
            target_status := (if env.rlyBoot i = RELAY_BOOT_SAME then true
              else if env.rlyBoot i = RELAY_BOOT_TOGGLE then false
              else if env.rlyBoot i = RELAY_BOOT_ON then true else false)
            change_time := t }))
    st.relays.length
    ({ st with relayRecursive := true }, 1, st.eeprom % U8, false)
    ⟨by rw [two_pow_mod_U8, if_pos (by omega)]; norm_num, rfl, fun i _ => rfl,
      fun i _ hi => absurd hi (Nat.not_lt_zero i)⟩
    ?_
  · intro i h8 hi
    unfold relayBoot
    dsimp only
    rw [getRelay_boot_final]
    exact key.2.2.2 i h8 hi
  · intro k acc hk ih
    obtain ⟨ihbit, ihlen, ihuntouched, ihdone⟩ := ih
    unfold relayBootStep
    dsimp only
    have hkacc : getRelay acc.1 k = getRelay st k := ihuntouched k (Nat.le_refl k)
    have hklen : k < acc.1.relays.length := by omega
    refine ⟨?_, ?_, ?_, ?_⟩
    · rw [ihbit]
      exact double_pow_mod_U8 k
    · rw [length_setRelay]
      exact ihlen
    · intro i hi
      rw [getRelay_setRelay_ne _ _ _ _ (by omega)]
      exact ihuntouched i (by omega)
    · intro i h8 hi
      by_cases hik : i = k
      · subst hik
        rw [getRelay_setRelay_self _ _ _ hklen, hkacc]
        have hbit0 : acc.2.1 = 0 := by
          rw [ihbit, two_pow_mod_U8, if_neg (by omega)]
        by_cases h1 : env.rlyBoot i = RELAY_BOOT_SAME
        · rw [if_pos h1, if_pos h1]
          simp [hbit0]
        · rw [if_neg h1, if_neg h1]
          by_cases h2 : env.rlyBoot i = RELAY_BOOT_TOGGLE
          · rw [if_pos h2, if_pos h2]
            simp [hbit0]
          · rw [if_neg h2, if_neg h2]
            by_cases h3 : env.rlyBoot i = RELAY_BOOT_ON
            · rw [if_pos h3, if_pos h3]
            · rw [if_neg h3, if_neg h3]
      · rw [getRelay_setRelay_ne _ _ _ _ (fun e => hik e.symm)]
        exact ihdone i h8 (by omega)

/-! ### Claim C5 — boot round-trip with policy Same -/

/-- C5 counterexample: with 4 relays and persisted mask 255, booting with
policy `Same`, letting every relay settle through the real scheduler and then
saving writes back 15, not 255: the 8-bit accumulator only ever credits the
first `min(count, 8)` relays, so the round-trip does not reproduce every mask
byte `M`. -/
theorem c5_counterexample :
    cStFour.eeprom = 255 ∧ relayCount cStFour = 4 ∧
    (∀ i, cEnv.rlyBoot i = RELAY_BOOT_SAME) ∧
    (relaySave (relayLoop cEnv 1000 (relayBoot cEnv 1000 cStFour)).1).eeprom = 15 ∧
    (relaySave (relayLoop cEnv 1000 (relayBoot cEnv 1000 cStFour)).1).eeprom ≠
      cStFour.eeprom := by
  refine ⟨rfl, rfl, fun i => rfl, by decide, by decide⟩

set_option maxHeartbeats 2000000 in
/-- C5 (amended): booting with policy `Same` for all relays restores, for
every relay `i < min(count, 8)`, `target_status` = bit `i` of the persisted
byte `M` (LSB = relay 0); relays from index 8 on boot to target ON regardless
of `M` (the 8-bit `bit` accumulator has wrapped to zero); and after every
relay settles through the scheduler, `relaySave` writes back exactly
`M mod 2^min(count, 8)` — in particular exactly `M` when the device has at
least 8 relays (or when `M`'s set bits all lie below the relay count). -/
theorem c5_boot_roundtrip_amended (env : Env) (t : Nat) (st : RelayState)
    (hboot : ∀ i, env.rlyBoot i = RELAY_BOOT_SAME) :
    (∀ i, i < min (relayCount st) 8 →
      (getRelay (relayBoot env t st) i).target_status = st.eeprom.testBit i) ∧
    (∀ i, 8 ≤ i → i < relayCount st →
      (getRelay (relayBoot env t st) i).target_status = true) ∧
    (relaySave (relayLoop env t (relayBoot env t st)).1).eeprom =
      st.eeprom % 2 ^ min (relayCount st) 8 := by
  have spec := relayBoot_same_spec env t st hboot
  have hrc : relayCount st = st.relays.length := rfl
  have h1 : ∀ i, i < min (relayCount st) 8 →
      (getRelay (relayBoot env t st) i).target_status = st.eeprom.testBit i := by
    intro i hi
    have hi' : i < st.relays.length := lt_of_lt_of_le hi (min_le_left _ _)
    have h8 : i < 8 := lt_of_lt_of_le hi (min_le_right _ _)
    rw [spec.2.2.2 i hi']
    show decide (st.eeprom % U8 &&& 2 ^ i % U8 = 2 ^ i % U8) = st.eeprom.testBit i
    rw [show (2 : Nat) ^ i % U8 = 2 ^ i from by rw [two_pow_mod_U8, if_pos h8]]
    have hmod : (st.eeprom % U8).testBit i = st.eeprom.testBit i := by
      rw [show U8 = 2 ^ 8 from rfl, Nat.testBit_mod_two_pow]
      simp [h8]
    by_cases hp : st.eeprom % U8 &&& 2 ^ i = 2 ^ i
    · rw [decide_eq_true hp, ← hmod, (and_two_pow_eq_iff _ i).mp hp]
    · rw [decide_eq_false hp, ← hmod]
      cases hb : (st.eeprom % U8).testBit i
      · rfl
      · exact absurd ((and_two_pow_eq_iff _ i).mpr hb) hp
  have h2 : ∀ i, 8 ≤ i → i < relayCount st →
      (getRelay (relayBoot env t st) i).target_status = true := by
    intro i h8 hi'
    rw [spec.2.2.2 i hi']
    show decide (st.eeprom % U8 &&& 2 ^ i % U8 = 2 ^ i % U8) = true
    rw [show (2 : Nat) ^ i % U8 = 0 from by rw [two_pow_mod_U8, if_neg (by omega)],
      Nat.and_zero]
    exact decide_eq_true rfl
  refine ⟨h1, h2, ?_⟩
  set B := relayBoot env t st with hB
  have hBlen : B.relays.length = st.relays.length := spec.1
  have hdue : ∀ j, j < B.relays.length → (getRelay B j).change_time ≤ t := by
    intro j hj
    rw [hB, spec.2.2.2 j (by omega)]
  have hsettle := relayLoop_settles env t B hdue
  have hlooplen : (relayLoop env t B).1.relays.length = B.relays.length := by
    show (relayProcess env t true (relayProcess env t false B).1).1.relays.length = _
    rw [(relayProcess_facts env t true _).1, (relayProcess_facts env t false B).1]
  show relaySaveMask (relayLoop env t B).1 = st.eeprom % 2 ^ min (relayCount st) 8
  rw [relaySaveMask_eq, hlooplen, hBlen]
  have hcongr : (Finset.range (min st.relays.length 8)).sum
        (fun i => if relayStatusGet (relayLoop env t B).1 i then 2 ^ i else 0) =
      (Finset.range (min st.relays.length 8)).sum
        (fun i => if st.eeprom.testBit i then 2 ^ i else 0) := by
    apply Finset.sum_congr rfl
    intro i hi
    rw [Finset.mem_range] at hi
    have hi' : i < st.relays.length := by omega
    have hget : relayStatusGet (relayLoop env t B).1 i =
        (getRelay (relayLoop env t B).1 i).current_status := by
      unfold relayStatusGet
      rw [if_pos (by omega : i < (relayLoop env t B).1.relays.length)]
    rw [hget, (hsettle i (by omega)).2, h1 i (by omega)]
  rw [hcongr]
  exact sum_testBit_mod _ _

/-- C5 witness: two relays, mask byte 2 — relay 1 boots ON, relay 0 OFF, and
the settled save writes back `2 % 2^2 = 2`. -/
theorem c5_boot_roundtrip_amended_witness :
    (∀ i, cEnv.rlyBoot i = RELAY_BOOT_SAME) ∧
    (getRelay (relayBoot cEnv 77 cStMask2) 1).target_status = cStMask2.eeprom.testBit 1 ∧
    (relaySave (relayLoop cEnv 77 (relayBoot cEnv 77 cStMask2)).1).eeprom =
      cStMask2.eeprom % 2 ^ min (relayCount cStMask2) 8 :=
  ⟨fun i => rfl,
   (c5_boot_roundtrip_amended cEnv 77 cStMask2 (fun i => rfl)).1 1 (by decide),
   (c5_boot_roundtrip_amended cEnv 77 cStMask2 (fun i => rfl)).2.2⟩

/-! ### Claim C10 — the persisted mask is 8 bits wide -/

/-- C10: `relaySave`'s mask is accumulated in 8-bit arithmetic, so the
`current_status` of any relay with index ≥ 8 contributes nothing to the
persisted byte; and `_relayBoot` seeds relays with index ≥ 8 identically for
any two persisted bytes — the mask can restore state only for relays 0–7. -/
theorem c10_mask_width (env : Env) (t : Nat) (st : RelayState) (r : RelayT)
    (id : Nat) (M M2 : Nat) :
    (8 ≤ id → relaySaveMask (setRelay st id r) = relaySaveMask st) ∧
    (∀ i, 8 ≤ i → i < relayCount st →
      getRelay (relayBoot env t { st with eeprom := M }) i =
        getRelay (relayBoot env t { st with eeprom := M2 }) i) := by
  constructor
  · intro h8
    rw [relaySaveMask_eq, relaySaveMask_eq, length_setRelay]
    apply Finset.sum_congr rfl
    intro i hi
    rw [Finset.mem_range] at hi
    have hne : id ≠ i := by omega
    have : relayStatusGet (setRelay st id r) i = relayStatusGet st i := by
      unfold relayStatusGet
      rw [length_setRelay, getRelay_setRelay_ne st id i r hne]
    rw [this]
  · intro i h8 hi
    rw [relayBoot_high env t { st with eeprom := M } i h8 hi,
      relayBoot_high env t { st with eeprom := M2 } i h8 hi]
    rfl

/-- C10 witness: on nine relays, flipping relay 8's status does not change
the saved mask, and booting with persisted bytes 0 and 77 seeds relay 8
identically. -/
theorem c10_mask_width_witness :
    relaySaveMask (setRelay cStNine 8 { defaultRelay with current_status := true }) =
      relaySaveMask cStNine ∧
    getRelay (relayBoot cEnv 3 { cStNine with eeprom := 0 }) 8 =
      getRelay (relayBoot cEnv 3 { cStNine with eeprom := 77 }) 8 :=
  ⟨(c10_mask_width cEnv 3 cStNine { defaultRelay with current_status := true } 8 0 77).1
    (by decide),
   (c10_mask_width cEnv 3 cStNine { defaultRelay with current_status := true } 8 0 77).2 8
    (by decide) (by decide)⟩

/-! ### Claim C2 — AllSame synchronisation and reentrancy -/

/-- C2 counterexample: the claim promises that after any single
`relayStatus(id, s)` call under `RELAY_SYNC_SAME` every relay's target equals
`s`; but a request for relay 0's already-current status takes the idempotent
branch, which never calls `relaySync`, so relay 1's target stays `false`
while `s = true`. -/
theorem c2_counterexample :
    cEnv.rlySync = RELAY_SYNC_SAME ∧
    cStTwo.relayRecursive = false ∧
    relayCount cStTwo = 2 ∧
    (getRelay cStTwo 0).current_status = true ∧
    (getRelay (relayStatus2 cEnv 0 cStTwo 0 true).1 1).target_status = false := by
  decide

/-- C2 (amended): under `RELAY_SYNC_SAME`, after a `relayStatus(id, s)` call
that requests a status different from relay `id`'s current one (entered with
the reentrancy flag clear), every relay's target equals `s`; a `relaySync`
entered while `_relayRecursive` is already set returns immediately without
modifying anything; and `relaySync` leaves the flag as it found it on every
exit (in particular clear again after a top-level pass). -/
theorem c2_allsame_amended (env : Env) (t : Nat) (st : RelayState) (id : Nat) (s : Bool)
    (hsync : env.rlySync = RELAY_SYNC_SAME)
    (hrec : st.relayRecursive = false)
    (hid : id < relayCount st)
    (hcur : ¬ (getRelay st id).current_status = s) :
    (∀ j, j < relayCount st →
      (getRelay (relayStatus2 env t st id s).1 j).target_status = s) ∧
    (∀ (f : Nat) (st2 : RelayState) (id2 : Nat),
      st2.relayRecursive = true → relaySyncF f env t st2 id2 = st2) ∧
    (∀ (f : Nat) (st2 : RelayState) (id2 : Nat),
      (relaySyncF f env t st2 id2).relayRecursive = st2.relayRecursive) := by
  refine ⟨?_, fun f st2 id2 h => relaySyncF_of_recursive f env t st2 id2 h,
    fun f st2 id2 => relaySyncF_recursive f env t st2 id2⟩
  intro j hj
  have hid' : id < st.relays.length := hid
  show (getRelay (relayStatusSet (3 + 1) env t st id s true true).1 j).target_status = s
  rw [relayStatusSet_flood_eq 3 env t st id s true true hid' hcur]
  have hmain := relaySyncF_same_targets 1 env t
    (setRelay st id (floodUpdate env t (getRelay st id) s true true)) id s hsync
    hrec (by rw [length_setRelay]; exact hid')
    (by rw [getRelay_setRelay_self _ _ _ hid']; exact floodUpdate_target env t _ s true true)
  exact hmain j (by rw [length_setRelay]; exact hj)

/-- C2 witness: three relays, relay 0 switched ON under `AllSame`; all three
targets become `true`. -/
theorem c2_allsame_amended_witness :
    cEnv.rlySync = RELAY_SYNC_SAME ∧ cStThree.relayRecursive = false ∧
    0 < relayCount cStThree ∧ ¬ (getRelay cStThree 0).current_status = true ∧
    (∀ j, j < relayCount cStThree →
      (getRelay (relayStatus2 cEnv 5 cStThree 0 true).1 j).target_status = true) :=
  ⟨rfl, rfl, by decide, by decide,
   (c2_allsame_amended cEnv 5 cStThree 0 true rfl rfl (by decide) (by decide)).1⟩

/-! ### Claim C4 — invalid-index rejection -/

/-- C4 counterexample: the claim includes `relayPulse` among the entry points
that reject an out-of-range id as a failure-reporting no-op, but the code
performs `_relays[id].pulseTicker.detach()` with no index check: on a
one-relay state, `relayPulse(1)` is an unchecked out-of-range vector access
(undefined behaviour, modelled `none`) — not a no-op that reports failure. -/
theorem c4_counterexample :
    relayCount cStArmed = 1 ∧ relayPulse cEnv cStArmed 1 = none := by
  decide

/-- C4 (amended): the `relayStatus` setter and getter and `relayToggle`
reject an id `≥ relayCount()` without mutating anything, returning `false`
(resp. doing nothing); `relayPulse` however performs no index check. -/
theorem c4_invalid_index_amended (env : Env) (t : Nat) (st : RelayState) (id : Nat)
    (s rep grp : Bool) (h : relayCount st ≤ id) :
    relayStatusSet relayFuel env t st id s rep grp = (st, false) ∧
    relayStatusGet st id = false ∧
    relayToggle3 env t st id rep grp = st ∧
    relayToggle1 env t st id = st := by
  have hlt : ¬ id < st.relays.length := by
    unfold relayCount at h
    omega
  refine ⟨?_, ?_, ?_, ?_⟩
  · show relayStatusSet (3 + 1) env t st id s rep grp = (st, false)
    unfold relayStatusSet
    dsimp only
    rw [if_neg hlt]
  · unfold relayStatusGet
    rw [if_neg hlt]
  · unfold relayToggle3
    rw [if_neg hlt]
  · unfold relayToggle1 relayToggle3
    rw [if_neg hlt]

/-- C4 witness: the amended theorem at a one-relay state and id 3. -/
theorem c4_invalid_index_amended_witness :
    relayCount cStArmed ≤ 3 ∧
    relayStatusSet relayFuel cEnv 7 cStArmed 3 true true true = (cStArmed, false) ∧
    relayStatusGet cStArmed 3 = false ∧
    relayToggle3 cEnv 7 cStArmed 3 true true = cStArmed ∧
    relayToggle1 cEnv 7 cStArmed 3 = cStArmed := by
  refine ⟨by decide, ?_, ?_, ?_, ?_⟩
  · exact (c4_invalid_index_amended cEnv 7 cStArmed 3 true true true (by decide)).1
  · exact (c4_invalid_index_amended cEnv 7 cStArmed 3 true true true (by decide)).2.1
  · exact (c4_invalid_index_amended cEnv 7 cStArmed 3 true true true (by decide)).2.2.1
  · exact (c4_invalid_index_amended cEnv 7 cStArmed 3 true true true (by decide)).2.2.2

/-! ### Claim C6 — idempotent request -/

/-- C6 counterexample: the claim says a request for the already-current
status "never changes `target_status`"; but on a relay with a pending change
(`current = false`, `target = true`), `relayStatus(0, false)` rewrites
`target_status` from `true` to `false` (cancelling the pending change) and
returns `true`. -/
theorem c6_counterexample :
    (getRelay cStPending 0).current_status = false ∧
    (getRelay cStPending 0).target_status = true ∧
    (getRelay (relayStatus2 cEnv 0 cStPending 0 false).1 0).target_status = false ∧
    (relayStatus2 cEnv 0 cStPending 0 false).2 = true := by
  decide

/-- C6 (amended): requesting the relay's already-current status `s` sets
`target_status = s` (cancelling any pending scheduled change) and leaves
`current_status`, `change_time` and the flood-window state unchanged, so no
future tick action remains scheduled; every other relay is untouched; the
call returns `true` exactly when a pending change existed.  (The provider
re-assertion call and the pulse-timer refresh still happen.) -/
theorem c6_idempotent_amended (env : Env) (t : Nat) (st : RelayState) (id : Nat)
    (s rep grp : Bool) (hid : id < relayCount st)
    (hcur : (getRelay st id).current_status = s) :
    (getRelay (relayStatusSet relayFuel env t st id s rep grp).1 id).target_status = s ∧
    (getRelay (relayStatusSet relayFuel env t st id s rep grp).1 id).current_status = s ∧
    (getRelay (relayStatusSet relayFuel env t st id s rep grp).1 id).change_time =
      (getRelay st id).change_time ∧
    (getRelay (relayStatusSet relayFuel env t st id s rep grp).1 id).fw_start =
      (getRelay st id).fw_start ∧
    (getRelay (relayStatusSet relayFuel env t st id s rep grp).1 id).fw_count =
      (getRelay st id).fw_count ∧
    (∀ j, j ≠ id → getRelay (relayStatusSet relayFuel env t st id s rep grp).1 j =
      getRelay st j) ∧
    ((relayStatusSet relayFuel env t st id s rep grp).2 = true ↔
      ¬ (getRelay st id).target_status = s) := by
  have hid' : id < st.relays.length := hid
  rw [show relayStatusSet relayFuel env t st id s rep grp =
      (relayPulseCore env
        (if (getRelay st id).target_status ≠ s then
          setRelay st id
            { getRelay st id with target_status := s, report := false, group_report := false }
        else st) id,
       decide ((getRelay st id).target_status ≠ s)) from
    relayStatusSet_idem_eq 3 env t st id s rep grp hid' hcur]
  by_cases hpend : (getRelay st id).target_status = s
  · rw [if_neg (by simpa using hpend)]
    obtain ⟨pu, pm, hpp⟩ := getRelay_relayPulseCore_self env st id hid'
    refine ⟨?_, ?_, ?_, ?_, ?_, ?_, ?_⟩
    · rw [show (relayPulseCore env st id,
        decide ((getRelay st id).target_status ≠ s)).1 = relayPulseCore env st id from rfl,
        hpp]
      exact hpend
    · rw [show (relayPulseCore env st id,
        decide ((getRelay st id).target_status ≠ s)).1 = relayPulseCore env st id from rfl,
        hpp]
      exact hcur
    · rw [show (relayPulseCore env st id,
        decide ((getRelay st id).target_status ≠ s)).1 = relayPulseCore env st id from rfl,
        hpp]
    · rw [show (relayPulseCore env st id,
        decide ((getRelay st id).target_status ≠ s)).1 = relayPulseCore env st id from rfl,
        hpp]
    · rw [show (relayPulseCore env st id,
        decide ((getRelay st id).target_status ≠ s)).1 = relayPulseCore env st id from rfl,
        hpp]
    · intro j hj
      exact getRelay_relayPulseCore_ne env st id j hj
    · simp [hpend]
  · rw [if_pos (by simpa using hpend)]
    set r1 : RelayT :=
      { getRelay st id with target_status := s, report := false, group_report := false }
      with hr1
    have hlen1 : id < (setRelay st id r1).relays.length := by
      rw [length_setRelay]
      exact hid'
    have hself : getRelay (setRelay st id r1) id = r1 :=
      getRelay_setRelay_self st id r1 hid'
    obtain ⟨pu, pm, hpp⟩ := getRelay_relayPulseCore_self env (setRelay st id r1) id hlen1
    rw [hself] at hpp
    refine ⟨?_, ?_, ?_, ?_, ?_, ?_, ?_⟩
    · rw [show (relayPulseCore env (setRelay st id r1) id,
        decide ((getRelay st id).target_status ≠ s)).1 =
          relayPulseCore env (setRelay st id r1) id from rfl, hpp]
    · rw [show (relayPulseCore env (setRelay st id r1) id,
        decide ((getRelay st id).target_status ≠ s)).1 =
          relayPulseCore env (setRelay st id r1) id from rfl, hpp]
      exact hcur
    · rw [show (relayPulseCore env (setRelay st id r1) id,
        decide ((getRelay st id).target_status ≠ s)).1 =
          relayPulseCore env (setRelay st id r1) id from rfl, hpp]
    · rw [show (relayPulseCore env (setRelay st id r1) id,
        decide ((getRelay st id).target_status ≠ s)).1 =
          relayPulseCore env (setRelay st id r1) id from rfl, hpp]
    · rw [show (relayPulseCore env (setRelay st id r1) id,
        decide ((getRelay st id).target_status ≠ s)).1 =
          relayPulseCore env (setRelay st id r1) id from rfl, hpp]
    · intro j hj
      rw [show (relayPulseCore env (setRelay st id r1) id,
        decide ((getRelay st id).target_status ≠ s)).1 =
          relayPulseCore env (setRelay st id r1) id from rfl]
      rw [getRelay_relayPulseCore_ne env _ id j hj]
      exact getRelay_setRelay_ne st id j r1 (fun e => hj e.symm)
    · simp [hpend]

/-- C6 witness: the amended theorem on a settled one-relay state. -/
theorem c6_idempotent_amended_witness :
    0 < relayCount cStArmed ∧ (getRelay cStArmed 0).current_status = false ∧
    (getRelay (relayStatusSet relayFuel cEnv 3 cStArmed 0 false true true).1 0).target_status
      = false ∧
    ((relayStatusSet relayFuel cEnv 3 cStArmed 0 false true true).2 = true ↔
      ¬ (getRelay cStArmed 0).target_status = false) := by
  have h := c6_idempotent_amended cEnv 3 cStArmed 0 false true true (by decide) (by decide)
  exact ⟨by decide, by decide, h.1, h.2.2.2.2.2.2⟩

/-! ### Claim C8 — pulse reload no-op condition -/

/-- C8 counterexample: the claim says `relayPulse` on a relay with pulse mode
`RELAY_PULSE_NONE` leaves the pulse-timer state unchanged, but the code
detaches the ticker before the mode check: with ticker 5 armed, the call
returns with the ticker disarmed. -/
theorem c8_counterexample :
    (getRelay cStArmed 0).pulse = RELAY_PULSE_NONE ∧
    cStArmed.armed = [5] ∧
    relayPulse cEnv cStArmed 0 = some { cStArmed with armed := [] } := by
  decide

/-- C8 (amended): when the relay's pulse mode is `RELAY_PULSE_NONE` or its
pulse duration is 0, `relayPulse(id)` leaves the relay record and its
configuration unchanged; its only effect is the unconditional detach of the
relay's pulse ticker performed before the checks. -/
theorem c8_pulse_noop_amended (env : Env) (st : RelayState) (id : Nat)
    (hid : id < relayCount st)
    (h : (getRelay st id).pulse = RELAY_PULSE_NONE ∨ (getRelay st id).pulse_ms = 0) :
    relayPulse env st id =
      some { st with armed := tickerDetach st.armed (getRelay st id).tickerId } := by
  have hid' : id < st.relays.length := hid
  unfold relayPulse
  rw [if_pos hid']
  unfold relayPulseCore
  dsimp only
  rcases h with h | h
  · rw [if_pos h]
  · by_cases h0 : (getRelay st id).pulse = RELAY_PULSE_NONE
    · rw [if_pos h0]
    · rw [if_neg h0, if_pos h]

/-- C8 witness: the amended theorem on the armed-ticker state. -/
theorem c8_pulse_noop_amended_witness :
    0 < relayCount cStArmed ∧
    ((getRelay cStArmed 0).pulse = RELAY_PULSE_NONE ∨ (getRelay cStArmed 0).pulse_ms = 0) ∧
    relayPulse cEnv cStArmed 0 =
      some { cStArmed with armed := tickerDetach cStArmed.armed (getRelay cStArmed 0).tickerId } :=
  ⟨by decide, by decide, c8_pulse_noop_amended cEnv cStArmed 0 (by decide) (by decide)⟩

/-! ### Claim C7 — reconfiguration must release live timers -/

/-- C7: the claim (and the spec) require `_relayConfigure` to release each
existing record's own pulse timer before clearing the store, so that no
timer armed before reconfiguration survives it.  The code instead copies the
record (`relay_t element = _relays[i];`) and detaches the copy's ticker: on a
state whose only relay owns the armed ticker 0, after reconfiguration the
ticker 0 is still armed while no record in the rebuilt store owns it — a
stale callback against a destroyed record. -/
theorem c7_stale_timer_bug :
    cStTicker.armed = [0] ∧
    (getRelay cStTicker 0).tickerId = 0 ∧
    (relayConfigure { cEnv with rlyDummy := 1 } cStTicker).armed = [0] ∧
    (∀ r ∈ (relayConfigure { cEnv with rlyDummy := 1 } cStTicker).relays,
      r.tickerId ≠ 0) := by
  decide

/-! ### Claim C9 — payload parsing -/

/-- C9: payloads are decided by their first character when it is `'0'`, `'1'`
or `'2'` (the rest is ignored); any other payload is matched — after the
leading-space trim, lower-casing at most its first 6 characters — against
`"off"`, `"on"`, `"toggle"`, `"query"`, yielding `0`, `1`, `2`, `3`, and
every other payload yields `0xFF`. -/
theorem c9_parse_payload :
    (∀ rest : List Char,
      relayParsePayload ('0' :: rest) = 0 ∧
      relayParsePayload ('1' :: rest) = 1 ∧
      relayParsePayload ('2' :: rest) = 2) ∧
    (∀ payload : List Char,
      payload.headD (Char.ofNat 0) ≠ '0' →
      payload.headD (Char.ofNat 0) ≠ '1' →
      payload.headD (Char.ofNat 0) ≠ '2' →
      relayParsePayload payload =
        wordMatch (lowerFirst (min (ltrim payload).length 6) (ltrim payload))) ∧
    (∀ q : List Char,
      (wordMatch q = 0 ↔ q = ['o', 'f', 'f']) ∧
      (wordMatch q = 1 ↔ q = ['o', 'n']) ∧
      (wordMatch q = 2 ↔ q = ['t', 'o', 'g', 'g', 'l', 'e']) ∧
      (wordMatch q = 3 ↔ q = ['q', 'u', 'e', 'r', 'y']) ∧
      (wordMatch q = 255 ↔
        q ≠ ['o', 'f', 'f'] ∧ q ≠ ['o', 'n'] ∧ q ≠ ['t', 'o', 'g', 'g', 'l', 'e'] ∧
          q ≠ ['q', 'u', 'e', 'r', 'y'])) := by
  refine ⟨?_, ?_, ?_⟩
  · intro rest
    refine ⟨?_, ?_, ?_⟩ <;> simp [relayParsePayload]
  · intro payload h0 h1 h2
    simp only [relayParsePayload, wordMatch, h0, h1, h2, if_false]
  · intro q
    unfold wordMatch
    split_ifs <;> simp_all

/-- C9 witness: `"0xyz"` is accepted as OFF by its first character; `" ON"`
goes through the keyword matching (which yields ON); a non-keyword payload
yields `0xFF`. -/
theorem c9_parse_payload_witness :
    relayParsePayload ['0', 'x', 'y', 'z'] = 0 ∧
    relayParsePayload [' ', 'O', 'N'] =
      wordMatch (lowerFirst (min (ltrim [' ', 'O', 'N']).length 6) (ltrim [' ', 'O', 'N'])) ∧
    (wordMatch ['o', 'n'] = 1 ↔ (['o', 'n'] : List Char) = ['o', 'n']) ∧
    (wordMatch ['o', 'n', 'x'] = 255 ↔
      (['o', 'n', 'x'] : List Char) ≠ ['o', 'f', 'f'] ∧
        (['o', 'n', 'x'] : List Char) ≠ ['o', 'n'] ∧
        (['o', 'n', 'x'] : List Char) ≠ ['t', 'o', 'g', 'g', 'l', 'e'] ∧
        (['o', 'n', 'x'] : List Char) ≠ ['q', 'u', 'e', 'r', 'y']) :=
  ⟨(c9_parse_payload.1 ['x', 'y', 'z']).1,
   c9_parse_payload.2.1 [' ', 'O', 'N'] (by decide) (by decide) (by decide),
   (c9_parse_payload.2.2 ['o', 'n']).2.1,
   (c9_parse_payload.2.2 ['o', 'n', 'x']).2.2.2.2⟩

end Espurna
